import Mathlib

/-!
# Verification of the openclaw-session-audit event pipeline

A shallow embedding, in Lean 4, of the core of the `openclaw-session-audit`
daemon: incremental session-log tailing with persisted byte offsets
(`src/watcher.ts`), a bounded seen-id deduplication set (`src/state.ts`),
per-session event batching with timer- and size-based flushes
(`src/events.ts`), diff-stat parsing and event formatting (`src/format.ts`),
session metadata (`src/metadata.ts`) and message rendering/sending
(`src/message.ts`).

Modelling conventions:
* JavaScript strings are modelled as Lean `String`s (one JS character per
  Lean `Char`); `Buffer.byteLength(s, "utf8")` is `String.utf8ByteSize`.
* JS numbers that matter here are integers; a possibly-`NaN` timestamp is
  an `Option Int` with `none` playing the role of `NaN`/`undefined`.
* `Record<string, unknown>` objects are association lists over a JSON-like
  value type `JVal`; JS truthiness and `String(...)` coercion are made
  explicit (`jtruthy`, `jsToString`).
* The module-level mutable maps (`state.offsets`, `seenIdsSet`,
  `pendingEvents`, `batchTimers`, `toolCallTimestamps`, `sessionMetadata`,
  `lastHeaderTime`) become fields of an explicit state record `DState`
  threaded through the translated functions.  The Node.js runtime's set of
  armed timeout objects is modelled by the extra field `outstanding`
  (alongside the `batchTimers` map itself), and `emitLog`/`sent` are
  observer fields recording, respectively, the ids of events handed to
  `addEvent` and the batches handed to the sender; they are written, never
  read, by the translated code.
* `async` functions run synchronously up to their first `await`; in
  `flushEvents` everything that matters to the claims (detaching the batch,
  clearing the timer entry, the rate-limit check, rendering) happens before
  the first `await`, so the functions are modelled as plain state
  transformers.
* `JSON.parse` is an external library routine; the tailer is parameterised
  by a parse function `String → Option Row`, where `Row` carries exactly
  the fields the daemon reads.
-/

namespace SessionAudit

/-! ## JavaScript string helpers -/

/-- `s.slice(start, stop)` on JS strings: negative indices count from the
end, and both indices are clamped to `[0, length]`. -/
def jsSlice (s : String) (start stop : Int) : String :=
  let len : Int := s.length
  let norm : Int → Nat := fun i =>
    (if i < 0 then max (len + i) 0 else min i len).toNat
  let f := norm start
  let t := norm stop
  String.mk ((s.toList.drop f).take (t - f))

/-- `array.join(sep)` (also `Array.prototype.join` semantics for a list of
strings): empty list gives `""`, otherwise elements interleaved with the
separator. -/
def jsJoin (sep : String) : List String → String
  | [] => ""
  | x :: xs => xs.foldl (fun acc l => acc ++ sep ++ l) x

/-- `s.includes(sub)`. -/
def jsIncludes (s sub : String) : Bool :=
  decide (sub.toList <:+: s.toList)

/-- Worker for `jsSplitOn`: split at each occurrence of the (nonempty)
separator `sep`; `acc` holds the current piece reversed.  The `fuel`
argument only makes the recursion structural (every step consumes at
least one character, so `fuel = cs.length` never runs out). -/
def splitOnAuxL (sep : List Char) : Nat → List Char → List Char →
    List (List Char)
  | _, [], acc => [acc.reverse]
  | 0, cs, acc => [acc.reverse ++ cs]
  | fuel + 1, c :: rest, acc =>
    if (c :: rest).take sep.length = sep ∧ sep ≠ [] then
      acc.reverse ::
        splitOnAuxL sep fuel ((c :: rest).drop sep.length) []
    else splitOnAuxL sep fuel rest (c :: acc)

/-- `s.split(sep)` for a nonempty literal separator. -/
def jsSplitOn (s sep : String) : List String :=
  match sep.toList with
  | [] => [s]
  | c0 :: sr =>
    (splitOnAuxL (c0 :: sr) s.toList.length s.toList []).map String.mk

/-- `s.trim()` (the model trims ASCII whitespace). -/
def jsTrim (s : String) : String :=
  String.mk
    (((s.toList.dropWhile Char.isWhitespace).reverse.dropWhile
      Char.isWhitespace).reverse)

/-- `s.replace(/pat/g, rep)`: replace every occurrence. -/
def jsReplaceAll (s pat rep : String) : String :=
  jsJoin rep (jsSplitOn s pat)

/-- Worker for `jsReplaceFirst`. -/
def replaceFirstL (pat rep : List Char) : List Char → List Char
  | [] => []
  | c :: rest =>
    if pat ≠ [] ∧ (c :: rest).take pat.length = pat then
      rep ++ (c :: rest).drop pat.length
    else c :: replaceFirstL pat rep rest

/-- `s.replace(pat, rep)` for a string pattern: replace the first
occurrence only. -/
def jsReplaceFirst (s pat rep : String) : String :=
  String.mk (replaceFirstL pat.toList rep.toList s.toList)

/-- `s.startsWith(pre)`. -/
def jsStartsWith (s pre : String) : Bool :=
  s.toList.take pre.length = pre.toList

/-- Decimal digits of a natural number, most significant first. -/
def natDigits (n : Nat) : List Char :=
  if _h : n < 10 then [Nat.digitChar n]
  else natDigits (n / 10) ++ [Nat.digitChar (n % 10)]
decreasing_by exact Nat.div_lt_self (by omega) (by omega)

/-- Decimal rendering of a natural number (the template-literal `${n}`). -/
def natDecimal (n : Nat) : String := String.mk (natDigits n)

/-- Decimal rendering of an integer (the template-literal `${n}`). -/
def intDecimal (i : Int) : String :=
  if i < 0 then "-" ++ natDecimal i.natAbs else natDecimal i.toNat

/-- JS `Math.round(a / b)` for integers `a`, `b > 0`:
`⌊a / b + 1 / 2⌋`. -/
def jsRoundDiv (a b : Int) : Int := Int.fdiv (2 * a + b) (2 * b)

/-- Truthiness of an optional JS string (`undefined` and `""` are falsy). -/
def truthyStr : Option String → Bool
  | none => false
  | some s => !(s = "")

/-- Truthiness of an optional JS number (`undefined`, `NaN` and `0` are
falsy; `none` stands for `undefined`/`NaN`). -/
def truthyNum : Option Int → Bool
  | none => false
  | some n => !(n = 0)

/-! ## JS `Map`s

Every `Map` of the daemon that the translated functions touch
(`state.offsets`, `pendingEvents`, `batchTimers`, `toolCallTimestamps`,
`sessionMetadata`, `lastHeaderTime`) is read and written only pointwise
(`get`/`set`/`delete`/`has`) by that code, so a map is modelled by its
lookup function. -/

/-- A JS `Map` with string keys, as its lookup function. -/
def JMap (α : Type) : Type := String → Option α

/-- The empty map. -/
def JMap.empty {α : Type} : JMap α := fun _ => none

/-- `m.get(k)`. -/
def mapFind? {α : Type} (m : JMap α) (k : String) : Option α := m k

/-- `m.set(k, v)`. -/
def mapInsert {α : Type} (m : JMap α) (k : String) (v : α) : JMap α :=
  fun k' => if k' = k then some v else m k'

/-- `m.delete(k)`. -/
def mapErase {α : Type} (m : JMap α) (k : String) : JMap α :=
  fun k' => if k' = k then none else m k'

/-! ## `src/state.ts` — seen-id set

`seenIdsSet` is a JS `Set`, i.e. an insertion-ordered collection of
distinct strings, modelled as a `List String`.  `hasSeenId` is check-and-
set: it reports whether the id was present and records it if not, evicting
the oldest entries (`[...set].slice(-MAX_SEEN_IDS)`) once the set exceeds
its capacity. -/

/-- `hasSeenId(id)` from `src/state.ts`, acting on an explicit seen list;
`cap` is `MAX_SEEN_IDS`.  Returns the reported boolean and the new set. -/
def hasSeenId (cap : Nat) (seen : List String) (id : String) :
    Bool × List String :=
  if id ∈ seen then (true, seen)
  else
    let seen' := seen ++ [id]
    if seen'.length > cap then (false, seen'.drop (seen'.length - cap))
    else (false, seen')

/-- Folding `hasSeenId` over a list of ids ("any number of insertions"). -/
def hasSeenIdAll (cap : Nat) (seen : List String) (ids : List String) :
    List String :=
  ids.foldl (fun s i => (hasSeenId cap s i).2) seen

/-! ## `src/config.ts` — configuration -/

/-- The recognised configuration options (`Config` in `src/types.ts`). -/
structure Config where
  channel : String
  targetId : String
  rateLimitMs : Int
  batchWindowMs : Int
  maxBatchSize : Nat
  maxMessageLength : Nat
  maxFileSize : Nat
  maxSeenIds : Nat
  agentEmojis : List (String × String)
  headerIntervalMs : Int
deriving Repr

/-- The `loadConfig()` defaults from `src/config.ts`. -/
def defaultConfig : Config :=
  { channel := ""
    targetId := ""
    rateLimitMs := 2000
    batchWindowMs := 10000
    maxBatchSize := 15
    maxMessageLength := 1700
    maxFileSize := 10000000
    maxSeenIds := 5000
    agentEmojis := [("clawd", "🦞")]
    headerIntervalMs := 60000 }

/-- `TOOL_PREVIEW_LENGTH` from `src/config.ts`. -/
def TOOL_PREVIEW_LENGTH : Nat := 250

/-! ## `src/format.ts` — `truncateText` -/

/-- `truncateText(text, maxLen)` from `src/format.ts`:
`""` (falsy) is returned as is; text within the limit is unchanged;
otherwise `text.slice(0, maxLen - 3) + "..."`. -/
def truncateText (text : String) (maxLen : Nat) : String :=
  if text = "" then ""
  else if text.length ≤ maxLen then text
  else jsSlice text 0 ((maxLen : Int) - 3) ++ "..."

/-! ## JSON-like values (`Record<string, unknown>` fields) -/

/-- A JSON-like value, used for the untyped `data`/`args` records carried
by pending events. -/
inductive JVal where
  | jnull
  | jbool (b : Bool)
  | jnum (n : Int)
  | jstr (s : String)
  | jarr (xs : List JVal)
  | jobj (fields : List (String × JVal))
deriving Repr

open JVal

/-- JS truthiness of a `JVal` (`null`, `false`, `0` and `""` are falsy;
arrays and objects are truthy). -/
def jtruthy : JVal → Bool
  | jnull => false
  | jbool b => b
  | jnum n => !(n = 0)
  | jstr s => !(s = "")
  | jarr _ => true
  | jobj _ => true

mutual

/-- JS `String(v)` coercion. -/
def jsToString : JVal → String
  | jnull => "null"
  | jbool b => if b then "true" else "false"
  | jnum n => intDecimal n
  | jstr s => s
  | jarr xs => jsJoin "," (jsToStringList xs)
  | jobj _ => "[object Object]"

def jsToStringList : List JVal → List String
  | [] => []
  | v :: vs => jsToString v :: jsToStringList vs

end

/-- Escape a string for `JSON.stringify`. -/
def jsonEscape (s : String) : String :=
  String.join (s.toList.map (fun c =>
    if c = '"' then "\\\""
    else if c = '\\' then "\\\\"
    else if c = '\n' then "\\n"
    else if c = '\r' then "\\r"
    else if c = '\t' then "\\t"
    else String.mk [c]))

mutual

/-- `JSON.stringify(v)` (for the values that occur here). -/
def jsonStringify : JVal → String
  | jnull => "null"
  | jbool b => if b then "true" else "false"
  | jnum n => intDecimal n
  | jstr s => "\"" ++ jsonEscape s ++ "\""
  | jarr xs => "[" ++ jsJoin "," (jsonStringifyList xs) ++ "]"
  | jobj fs => "\x7b" ++ jsJoin "," (jsonStringifyFields fs) ++ "\x7d"

def jsonStringifyList : List JVal → List String
  | [] => []
  | v :: vs => jsonStringify v :: jsonStringifyList vs

def jsonStringifyFields : List (String × JVal) → List String
  | [] => []
  | (k, v) :: fs =>
    ("\"" ++ jsonEscape k ++ "\":" ++ jsonStringify v) :: jsonStringifyFields fs

end

/-- `data[key]` on a record value (plain objects keep field insertion
order, so records stay association lists). -/
def getField (data : List (String × JVal)) (k : String) : Option JVal :=
  (data.find? (fun p => p.1 = k)).map (·.2)

/-- `data[key] = v` on a record value: updates the field in place if
present, else appends it. -/
def setField (data : List (String × JVal)) (k : String) (v : JVal) :
    List (String × JVal) :=
  if (data.find? (fun p => p.1 = k)).isSome then
    data.map (fun p => if p.1 = k then (k, v) else p)
  else data ++ [(k, v)]

/-- `data.args?.[key]` on a record value whose `args` field is an object. -/
def argField (data : List (String × JVal)) (k : String) : Option JVal :=
  match getField data "args" with
  | some (jobj fs) => getField fs k
  | _ => none

/-- `String(x₁ || x₂ || ... || "")`: the first truthy value coerced to a
string, else `""`. -/
def chainStr (xs : List (Option JVal)) : String :=
  match xs.findSome? (fun x => x.bind (fun v => if jtruthy v then some v else none)) with
  | some v => jsToString v
  | none => ""

/-! ## `src/types.ts` — core data -/

/-- `PendingEvent` from `src/types.ts`.  `timestamp` is `Option Int` since
`new Date(row.timestamp).getTime()` can be `NaN` (modelled as `none`). -/
structure PendingEvent where
  type : String
  timestamp : Option Int
  data : List (String × JVal)
  id : String
  sessionKey : String
  threadNumber : Option String
deriving Repr

/-- `SessionMetadata` from `src/types.ts`. -/
structure SessionMetadata where
  cwd : String
  projectName : String
  model : String
  chatType : String
  key : String
  agentName : Option String := none
  contextTokens : Option Int := none
  usedTokens : Option Int := none
  provider : Option String := none
  surface : Option String := none
  updatedAt : Option String := none
  groupId : Option String := none
  thinkingLevel : Option String := none
deriving Repr

/-- `ToolCallTimestamp` from `src/types.ts`. -/
structure ToolCallStamp where
  timestamp : Option Int
  sessionKey : String
deriving Repr

/-- `DiffStats` from `src/types.ts`. -/
structure DiffStats where
  added : Nat
  removed : Nat
  addedChars : Nat
  removedChars : Nat
deriving Repr

/-- `ProjectInfo` from `src/types.ts`. -/
structure ProjectInfo where
  name : String
  emoji : String
  model : String
  chatType : String
  shortId : String
  keyDisplay : String
  isSubagent : Bool
  agentName : String
  cwd : String
  contextTokens : String
  provider : String
  surface : String
  updatedAt : String
  groupId : String
  thinkingLevel : String
deriving Repr

/-! ## The daemon state

All module-level mutable state of the daemon, gathered in one record and
threaded explicitly.  `outstanding` is the Node runtime's multiset of armed
timeout objects, tagged with the group key they will flush and the handle
stored in `batchTimers`; `nextHandle` is a source of fresh handles.
`emitLog` (ids handed to `addEvent`) and `sent` (batches handed to the
sender after the rate-limit check) are write-only observer fields. -/
structure DState where
  offsets : JMap Nat
  seen : List String
  meta : JMap SessionMetadata
  pending : JMap (List PendingEvent)
  timersMap : JMap Nat
  outstanding : List (String × Nat)
  nextHandle : Nat
  lastEventTime : JMap Int
  toolTs : JMap ToolCallStamp
  sent : List (String × List PendingEvent)
  emitLog : List String

/-- The state at daemon start-up: every map empty. -/
def initState : DState :=
  { offsets := JMap.empty
    seen := []
    meta := JMap.empty
    pending := JMap.empty
    timersMap := JMap.empty
    outstanding := []
    nextHandle := 0
    lastEventTime := JMap.empty
    toolTs := JMap.empty
    sent := []
    emitLog := [] }

/-! ## `src/events.ts` — batching and flushing

`flushEvents` detaches the batch and clears the timer entry before its
first `await`; if `Date.now() < getRetryAfter()` the detached batch is
dropped, otherwise it is rendered and (after the rate-limit sleep) sent —
recorded here by appending to `sent`.  `now` is `Date.now()` and `ra` the
current `retryAfterMs`. -/
def flushEvents (now ra : Int) (st : DState) (groupKey : String) : DState :=
  match mapFind? st.pending groupKey with
  | none =>
    { st with pending := mapErase st.pending groupKey
              timersMap := mapErase st.timersMap groupKey }
  | some events =>
    if events.length = 0 then
      { st with pending := mapErase st.pending groupKey
                timersMap := mapErase st.timersMap groupKey }
    else
      let st' := { st with pending := mapErase st.pending groupKey
                           timersMap := mapErase st.timersMap groupKey }
      if now < ra then st'
      else { st' with sent := st'.sent ++ [(groupKey, events)] }

/-- `scheduleFlush(groupKey)` from `src/events.ts`: immediate flush (after
cancelling any armed timer) once the batch reaches `MAX_BATCH_SIZE`,
otherwise arm a timer only if none is pending for the key. -/
def scheduleFlush (cfg : Config) (now ra : Int) (st : DState)
    (groupKey : String) : DState :=
  let events := (mapFind? st.pending groupKey).getD []
  if events.length ≥ cfg.maxBatchSize then
    let st1 :=
      match mapFind? st.timersMap groupKey with
      | some h => { st with outstanding := st.outstanding.erase (groupKey, h) }
      | none => st
    let st2 := { st1 with timersMap := mapErase st1.timersMap groupKey }
    flushEvents now ra st2 groupKey
  else if (mapFind? st.timersMap groupKey).isSome then st
  else
    { st with timersMap := mapInsert st.timersMap groupKey st.nextHandle
              outstanding := st.outstanding ++ [(groupKey, st.nextHandle)]
              nextHandle := st.nextHandle + 1 }

/-- The group key used by `addEvent`:
`sessionKey-topic-N` when the event carries a (truthy) thread number. -/
def groupKeyOf (sessionKey : String) (ev : PendingEvent) : String :=
  match ev.threadNumber with
  | some t => if t = "" then sessionKey else sessionKey ++ "-topic-" ++ t
  | none => sessionKey

/-- `addEvent(sessionKey, event)` from `src/events.ts`. -/
def addEvent (cfg : Config) (now ra : Int) (st : DState)
    (sessionKey : String) (ev : PendingEvent) : DState :=
  let groupKey := groupKeyOf sessionKey ev
  let pending' :=
    match mapFind? st.pending groupKey with
    | some evs => mapInsert st.pending groupKey (evs ++ [ev])
    | none => mapInsert st.pending groupKey [ev]
  let st' := { st with pending := pending'
                       lastEventTime := mapInsert st.lastEventTime groupKey now
                       emitLog := st.emitLog ++ [ev.id] }
  scheduleFlush cfg now ra st' groupKey

/-! ## Row model (the JSON-record fields read by `src/watcher.ts`)

`JSON.parse` is external; the tailer is parameterised by a parse function
producing `Row`s, which carry exactly the fields the daemon accesses.
`timestamp` fields hold the millisecond value of
`new Date(row.timestamp).getTime()` (`none` = `NaN`). -/

/-- One element of an assistant message's `content` array. -/
structure ContentItem where
  type : Option String := none
  text : Option String := none
  thinking : Option String := none
  id : Option String := none
  name : Option String := none
  arguments : Option (List (String × JVal)) := none
deriving Repr

/-- The `details` object of a tool-result message. -/
structure MessageDetails where
  diff : Option String := none
  durationMs : Option Int := none
deriving Repr

/-- The nested `message` object of a log record. -/
structure RowMessage where
  role : Option String := none
  content : Option (List ContentItem) := none
  usage : Option Int := none
  stopReason : Option String := none
  toolCallId : Option String := none
  isError : Option Bool := none
  details : Option MessageDetails := none
deriving Repr

/-- One parsed log line (`row`), with the fields the daemon reads;
`usage` inside `RowMessage` is `message.usage?.totalTokens` and
`dataModelId` is `row.data?.modelId`. -/
structure Row where
  type : Option String := none
  cwd : Option String := none
  thinkingLevel : Option String := none
  id : Option String := none
  timestamp : Option Int := none
  modelId : Option String := none
  customType : Option String := none
  dataModelId : Option String := none
  error : Option String := none
  message : Option RowMessage := none
deriving Repr

/-! ## `src/format.ts` — formatting -/

/-- `formatTimestamp(ts)`: `HH:MM:SS.mmm`.  The source uses the local-time
`Date` accessors; the model renders in UTC.  A `NaN` timestamp renders as
JS does (`String(NaN).padStart(2, "0") = "NaN"`). -/
def pad2 (n : Nat) : String :=
  if n < 10 then "0" ++ natDecimal n else natDecimal n

/-- Three-digit padding for milliseconds. -/
def pad3 (n : Nat) : String :=
  if n < 10 then "00" ++ natDecimal n
  else if n < 100 then "0" ++ natDecimal n
  else natDecimal n

/-- `formatTimestamp` from `src/format.ts`. -/
def formatTimestamp : Option Int → String
  | none => "NaN:NaN:NaN.NaN"
  | some ts =>
    let h := (Int.emod (Int.fdiv ts 3600000) 24).toNat
    let m := (Int.emod (Int.fdiv ts 60000) 60).toNat
    let s := (Int.emod (Int.fdiv ts 1000) 60).toNat
    let ms := (Int.emod ts 1000).toNat
    pad2 h ++ ":" ++ pad2 m ++ ":" ++ pad2 s ++ "." ++ pad3 ms

/-- `(ms / 1000).toFixed(1)` for `0 < ms < 60000`. -/
def toFixed1 (ms : Int) : String :=
  let t := (ms + 50) / 100
  intDecimal (t / 10) ++ "." ++ intDecimal (Int.emod t 10)

/-- `formatDuration(ms)` from `src/format.ts` (`none` covers `null`,
`undefined` and `NaN`). -/
def formatDuration : Option Int → String
  | none => ""
  | some ms =>
    if ms ≤ 0 then ""
    else if ms < 1000 then "(" ++ intDecimal ms ++ "ms)"
    else if ms < 60000 then "(" ++ toFixed1 ms ++ "s)"
    else
      "(" ++ intDecimal (ms / 60000) ++ "m " ++
        intDecimal ((Int.emod ms 60000) / 1000) ++ "s)"

/-- The loop body of `parseDiffStats`: one line's contribution. -/
def diffLine (ds : DiffStats) (line : String) : DiffStats :=
  let ds :=
    if jsStartsWith line "+" && !(jsStartsWith line "+++") then
      { ds with added := ds.added + 1
                addedChars := ds.addedChars + (line.length - 1) }
    else ds
  if jsStartsWith line "-" && !(jsStartsWith line "---") then
    { ds with removed := ds.removed + 1
              removedChars := ds.removedChars + (line.length - 1) }
  else ds

/-- `parseDiffStats(diff)` from `src/format.ts`: count lines starting with
`+` (but not `+++`) and `-` (but not `---`), with character counts. -/
def parseDiffStats : Option String → Option DiffStats
  | none => none
  | some diff =>
    if diff = "" then none
    else
      let lines := jsSplitOn diff "\n"
      let ds := lines.foldl diffLine ⟨0, 0, 0, 0⟩
      if ds.added > 0 || ds.removed > 0 then some ds else none

/-- One attempt, at the current position, of the sender regex
`/"(?:label|name|username)":\s*"([^"]+)"/` of `extractSenderName`. -/
def senderAt (cs : List Char) : Option String :=
  ["label", "name", "username"].findSome? (fun k =>
    let pat := '"' :: (k.toList ++ ['"', ':'])
    if cs.take pat.length = pat then
      let rest := (cs.drop pat.length).dropWhile (fun c => c.isWhitespace)
      match rest with
      | '"' :: rest2 =>
        let cap := rest2.takeWhile (fun c => !(c = '"'))
        if cap ≠ [] ∧ rest2.drop cap.length ≠ [] then some (String.mk cap)
        else none
      | _ => none
    else none)

/-- Leftmost match of the sender regex. -/
def senderScan : List Char → Option String
  | [] => none
  | c :: rest =>
    match senderAt (c :: rest) with
    | some s => some s
    | none => senderScan rest

/-- `extractSenderName(content)` from `src/format.ts`. -/
def extractSenderName (content : List ContentItem) : String :=
  match content.findSome? (fun item =>
    if item.type = some "text" then senderScan (item.text.getD "").toList
    else none) with
  | some s => s
  | none => "User"

/-- `TOOL_ICONS` from `src/config.ts`. -/
def TOOL_ICONS : List (String × String) :=
  [("exec", "⚡"), ("edit", "✏️"), ("write", "📝"), ("read", "📖"),
   ("glob", "🔍"), ("grep", "🔎"),
   ("webfetch", "🌐"), ("web_fetch", "🌐"), ("web_search", "🔎"),
   ("bash", "💻"), ("process", "⚙️"),
   ("sessions_spawn", "🚀"), ("sessions_list", "📋"),
   ("sessions_history", "📜"), ("sessions_send", "📤"),
   ("delegate_task", "📤"), ("subagents", "🤖"), ("memory_search", "🧠"),
   ("cron", "⏰"),
   ("gateway", "🚪"), ("browser", "🌐"), ("image", "🖼️"),
   ("nodes", "🔷"), ("session_status", "📊"),
   ("output", "📤"), ("agents_list", "📋"), ("message", "💬"),
   ("task", "📋"), ("http", "🌐"), ("skill", "🎯"), ("cache_docs", "📚"),
   ("analyze_video", "🎬"), ("analyze_image", "🖼️"),
   ("ui_to_artifact", "🎨"),
   ("diagnose_error", "❌"), ("understand_diagram", "📊"),
   ("analyze_data", "📈"),
   ("ui_diff_check", "🔍"), ("extract_text", "📄"), ("web_reader", "📖"),
   ("ask_question", "❓"), ("call_agent", "🤖"), ("slashcommand", "⚡"),
   ("todo", "📝"), ("update_todo", "📝"), ("grep_search", "🔎"),
   ("glob_search", "🔍"),
   ("sed_replace", "✏️"), ("diff", "📊"), ("jq", "🔧"),
   ("http_request", "🌐"),
   ("file_stats", "📊"), ("git_diff", "📊"), ("git_status", "📊"),
   ("run_background", "🔄"), ("check_background", "🔍"),
   ("list_background", "📋"),
   ("kill_background", "🛑"), ("ast_search", "🔍"), ("ast_replace", "✏️"),
   ("lsp_diagnostics", "🔍"), ("delegate", "🤖"),
   ("get_task_result", "📋"),
   ("list_tasks", "📋"), ("cancel_task", "🛑"), ("list_agents", "📋"),
   ("show_metrics", "📊")]

/-- `String(x₁ || x₂ || ... || dfl)` for a string default. -/
def chainStrD (xs : List (Option JVal)) (dfl : String) : String :=
  match xs.findSome?
      (fun x => x.bind (fun v => if jtruthy v then some v else none)) with
  | some v => jsToString v
  | none => dfl

/-- Truthiness of a data field (`undefined` for a missing key). -/
def dataTruthy (data : List (String × JVal)) (k : String) : Bool :=
  match getField data k with
  | some v => jtruthy v
  | none => false

/-- `getArg(data, key)` from `src/format.ts`:
`String(data[key] || args?.[key] || "")`. -/
def getArg (data : List (String × JVal)) (key : String) : String :=
  chainStrD [getField data key, argField data key] ""

/-- A numeric data field (`data[k] as number | null/undefined`), `none`
for anything non-numeric. -/
def dataNum (data : List (String × JVal)) (k : String) : Option Int :=
  match getField data k with
  | some (jnum n) => some n
  | _ => none

/-- `DiffStats` as the record value stored in `data.diffStats`. -/
def diffToJVal : Option DiffStats → JVal
  | none => jnull
  | some ds =>
    jobj [("added", jnum ds.added), ("removed", jnum ds.removed),
          ("addedChars", jnum ds.addedChars),
          ("removedChars", jnum ds.removedChars)]

/-- Reading the `DiffStats` record back (`data.diffStats as DiffStats`);
only ever applied to values written by `diffToJVal`. -/
def readDiff (v : JVal) : DiffStats :=
  match v with
  | jobj fs =>
    let num := fun k =>
      match getField fs k with
      | some (jnum n) => n.toNat
      | _ => 0
    ⟨num "added", num "removed", num "addedChars", num "removedChars"⟩
  | _ => ⟨0, 0, 0, 0⟩

/-- `n.toLocaleString()` (en-US digit grouping). -/
def groupThousands (ds : List Char) : List Char :=
  if _h : ds.length ≤ 3 then ds
  else
    groupThousands (ds.take (ds.length - 3)) ++
      ',' :: ds.drop (ds.length - 3)
termination_by ds.length
decreasing_by simp [List.length_take]; omega

/-- `n.toLocaleString()` for an integer. -/
def intLocale (n : Int) : String :=
  (if n < 0 then "-" else "") ++ String.mk (groupThousands (natDigits n.natAbs))

/-- `TOOL_ICONS[name] || "üîß"` (the fallback glyph is the file's literal
bytes). -/
def toolIcon (name : String) : String :=
  match (TOOL_ICONS.find? (fun p => p.1 = name)).map (·.2) with
  | some v => if v = "" then "üîß" else v
  | none => "üîß"

/-- The file-path argument chain used by the edit/write/read branches. -/
def pathArg (data : List (String × JVal)) : String :=
  chainStrD [getField data "file_path", getField data "path",
             argField data "file_path", argField data "path",
             argField data "filePath"] ""

/-- `formatEvent(event)` from `src/format.ts` (`none` = `null`).  The
string literals reproduce the file's bytes exactly (several glyphs in
`src/format.ts` are stored double-encoded, unlike `src/config.ts` and
`src/message.ts`). -/
def formatEvent (event : PendingEvent) : Option String :=
  let time := formatTimestamp event.timestamp
  let data := event.data
  let etype := event.type
  let errPre := if dataTruthy data "isError" then "‚ùå " else ""
  if etype = "tool_call" ∨ etype = "call" ∨ etype = "toolCall" then
    let name := chainStrD [getField data "name"] ""
    let icon := toolIcon name
    let durationStr := formatDuration (dataNum data "durationMs")
    let head := time ++ " " ++ errPre ++ icon ++ " "
    if name = "exec" ∨ name = "bash" then
      let cmd := chainStrD [getField data "command", argField data "command"] ""
      some (head ++ name ++ durationStr ++ ": " ++
        truncateText cmd TOOL_PREVIEW_LENGTH)
    else if name = "edit" ∨ name = "write" then
      let path := pathArg data
      let summary := if path = "" then "(unknown)" else path
      let diffStr :=
        match getField data "diffStats" with
        | some v =>
          if jtruthy v then
            let ds := readDiff v
            " (+" ++ natDecimal ds.added ++ "/-" ++ natDecimal ds.removed ++
              " lines, +" ++ natDecimal ds.addedChars ++ "/-" ++
              natDecimal ds.removedChars ++ " chars)"
          else ""
        | none => ""
      some (head ++ name ++ durationStr ++ diffStr ++ ": `" ++ summary ++ "`")
    else if name = "read" then
      let path := pathArg data
      some (head ++ "read" ++ durationStr ++ ": `" ++
        (if path = "" then "(unknown)" else path) ++ "`")
    else if name = "grep_search" ∨ name = "glob_search" ∨ name = "grep" ∨
        name = "glob" then
      let pat := chainStrD [getField data "pattern", argField data "pattern"] ""
      some (head ++ name ++ durationStr ++ ": " ++
        truncateText pat TOOL_PREVIEW_LENGTH)
    else if name = "webfetch" ∨ name = "web_fetch" ∨ name = "web_search" ∨
        name = "http" ∨ name = "http_request" then
      let url := chainStrD [getField data "url", argField data "url"] ""
      let query := chainStrD [getField data "query", argField data "query"] ""
      let display := if name = "web_search" then query else url
      some (head ++ name ++ durationStr ++ ": " ++
        truncateText display TOOL_PREVIEW_LENGTH)
    else if name = "process" then
      let action := getArg data "action"
      let sessionId := getArg data "sessionId"
      let command := getArg data "name"
      let status := getArg data "status"
      let exitCode := getArg data "exitCode"
      let details := action
      let details :=
        if command ≠ "" ∧ (action = "spawn" ∨ action = "list") then
          details ++ " [" ++ truncateText command 30 ++ "]"
        else details
      let details :=
        if status ≠ "" ∧ action = "poll" then
          let details := details ++ " (" ++ status ++ ")"
          if exitCode ≠ "" ∧ exitCode ≠ "0" then
            details ++ " exit:" ++ exitCode
          else details
        else if sessionId ≠ "" ∧ status = "" then
          details ++ " (" ++ truncateText sessionId 20 ++ ")"
        else details
      some (head ++ "process" ++ durationStr ++ ": " ++ details)
    else if name = "gateway" then
      let action := getArg data "action"
      some (head ++ "gateway" ++ durationStr ++ ": " ++
        (if action = "" then "call" else action))
    else if name = "sessions_spawn" then
      let label := getArg data "label"
      let model := getArg data "model"
      some (head ++ "spawn" ++ durationStr ++ ": " ++
        truncateText label TOOL_PREVIEW_LENGTH ++
        (if model ≠ "" then " [" ++ model ++ "]" else ""))
    else if name = "sessions_list" ∨ name = "sessions_history" then
      let action := getArg data "action"
      let action :=
        if action = "" then jsReplaceFirst name "sessions_" "" else action
      some (head ++ name ++ durationStr ++ ": " ++ action)
    else if name = "sessions_send" then
      let target := getArg data "target"
      some (head ++ "send" ++ durationStr ++ ": " ++
        truncateText target TOOL_PREVIEW_LENGTH)
    else if name = "message" then
      let channel := getArg data "channel"
      let target := getArg data "target"
      let msg := getArg data "message"
      let targetDisplay :=
        if target ≠ "" then
          if target.length > 20 then
            " ‚Üí " ++ String.mk (target.toList.take 20) ++ "..."
          else " ‚Üí " ++ target
        else ""
      some (head ++ "message" ++ durationStr ++ ": " ++ channel ++
        targetDisplay ++
        (if msg ≠ "" then " - " ++ truncateText msg TOOL_PREVIEW_LENGTH
         else ""))
    else if name = "subagents" then
      let action := getArg data "action"
      let target := getArg data "target"
      let recent := getArg data "recentMinutes"
      if action = "list" ∧ recent ≠ "" then
        some (head ++ "subagents" ++ durationStr ++ ": list (last " ++
          recent ++ "m)")
      else
        some (head ++ "subagents" ++ durationStr ++ ": " ++ action ++
          (if target ≠ "" then
            " " ++ truncateText target TOOL_PREVIEW_LENGTH
           else ""))
    else if name = "cron" then
      let action := getArg data "action"
      let jobId := getArg data "jobId"
      let jobFields :=
        match argField data "job" with
        | some (jobj fs) => fs
        | _ => []
      let jobName :=
        match getField jobFields "name" with
        | some (jstr s) => s
        | _ => ""
      let schedExpr :=
        match getField jobFields "schedule" with
        | some (jobj sfs) => chainStrD [getField sfs "expr"] ""
        | _ => ""
      let schedule :=
        if getArg data "schedule" ≠ "" then getArg data "schedule"
        else if getArg data "cron" ≠ "" then getArg data "cron"
        else schedExpr
      let details := action
      let details :=
        if schedule ≠ "" then
          details ++ " [" ++ truncateText schedule 30 ++ "]"
        else details
      let details :=
        if jobName ≠ "" ∧ action = "add" then
          details ++ " \"" ++ truncateText jobName 20 ++ "\""
        else details
      let details :=
        if jobId ≠ "" ∧ action ≠ "add" then
          details ++ " (" ++ truncateText jobId 20 ++ ")"
        else details
      some (head ++ "cron" ++ durationStr ++ ": " ++ details)
    else if name = "gh" then
      let command :=
        if getArg data "command" ≠ "" then getArg data "command"
        else getArg data "args"
      some (head ++ "gh" ++ durationStr ++ ": " ++
        truncateText command TOOL_PREVIEW_LENGTH)
    else if name = "memory_search" then
      let query := getArg data "query"
      some (head ++ "memory" ++ durationStr ++ ": " ++
        truncateText query TOOL_PREVIEW_LENGTH)
    else if name = "browser" then
      let url := getArg data "url"
      some (head ++ "browser" ++ durationStr ++ ": " ++
        truncateText url TOOL_PREVIEW_LENGTH)
    else some (head ++ name ++ durationStr)
  else if etype = "user_message" then
    let sender := chainStrD [getField data "sender"] "User"
    let preview := chainStrD [getField data "preview", getField data "text"] ""
    if preview = "" ∨ jsTrim preview = "...." ∨ jsTrim preview = "" then none
    else
      some (time ++ " üí¨ " ++ sender ++ ":\n```\n" ++
        truncateText preview 300 ++ "\n```")
  else if etype = "assistant_complete" ∨ etype = "complete" then
    let tokens := dataNum data "tokens"
    let preview :=
      chainStrD [getField data "messagePreview", getField data "text"] ""
    let msg := time ++ " ‚úÖ Response completed"
    let msg :=
      match tokens with
      | some t => if t ≠ 0 then msg ++ " (" ++ intLocale t ++ " tokens)" else msg
      | none => msg
    let msg :=
      if preview ≠ "" then
        msg ++ ": \"" ++
          truncateText (jsReplaceAll preview "\n" " ") TOOL_PREVIEW_LENGTH ++ "\""
      else msg
    some msg
  else if etype = "thinking" then
    let preview := chainStrD [getField data "preview", getField data "text"] ""
    some (time ++ " üí≠ Thinking: \"" ++
      truncateText (jsReplaceAll preview "\n" " ") TOOL_PREVIEW_LENGTH ++ "\"")
  else if etype = "thinking_level" then
    let level := chainStrD [getField data "level"] "unknown"
    some (time ++ " üß† Thinking level: " ++ level)
  else if etype = "error" then
    let msg :=
      chainStrD [getField data "error", getField data "message"]
        "Unknown error"
    some (time ++ " ‚ùå Error: " ++
      truncateText msg TOOL_PREVIEW_LENGTH)
  else if etype = "model_change" then
    let oldModel := chainStrD [getField data "oldModel"] ""
    let newModel :=
      chainStrD [getField data "newModel", getField data "to",
                 getField data "model"] ""
    if oldModel ≠ "" ∧ newModel ≠ "" then
      some (time ++ " üîÑ Model changed: " ++ oldModel ++
        " ‚Üí " ++ newModel)
    else some (time ++ " üîÑ Model: " ++ newModel)
  else if etype = "context_compaction" ∨ etype = "compaction" then
    some (time ++ " üóúÔ∏è Context compaction")
  else if etype = "image" then
    let mime :=
      chainStrD [getField data "mimeType", getField data "mime_type"] "image"
    some (time ++ " üñºÔ∏è Image: " ++ mime)
  else some (time ++ " üìå " ++ etype)

/-! ## `src/metadata.ts` — project info -/

/-- `[a-f0-9-]` character class. -/
def isHexDashChar (c : Char) : Bool :=
  (decide ('a' ≤ c) && decide (c ≤ 'f')) || c.isDigit || decide (c = '-')

/-- `getProjectInfo(sessionId)` from `src/metadata.ts`, over an explicit
metadata map. -/
def getProjectInfo (cfg : Config) (meta : JMap SessionMetadata)
    (sessionId : String) : ProjectInfo :=
  let shortId := String.mk (sessionId.toList.take 8)
  match mapFind? meta sessionId with
  | none =>
    { name := shortId, emoji := "🤖", model := "", chatType := "unknown",
      shortId := shortId, keyDisplay := shortId, isSubagent := false,
      agentName := "", cwd := "", contextTokens := "", provider := "",
      surface := "", updatedAt := "", groupId := "", thinkingLevel := "" }
  | some m =>
    let parts := jsSplitOn m.cwd "/"
    let last := parts.getLastD ""
    let projectName0 := if last = "" then shortId else last
    let projectName :=
      if projectName0 = "home" ∧ parts.length > 2 then
        parts.getD (parts.length - 2) ""
      else projectName0
    let isSubagent := jsIncludes m.key "subag"
    let keyDisplay := if m.key = "" then shortId else m.key
    let emoji :=
      match (cfg.agentEmojis.find? (fun p => p.1 = projectName)).map (·.2) with
      | some e => if e = "" then "🤖" else e
      | none => "🤖"
    let contextTokens :=
      if truthyNum m.usedTokens ∧ truthyNum m.contextTokens then
        let u := m.usedTokens.getD 0
        let c := m.contextTokens.getD 0
        intDecimal (jsRoundDiv u 1000) ++ "k/" ++
          intDecimal (jsRoundDiv c 1000) ++ "k (" ++
          intDecimal (jsRoundDiv (u * 100) c) ++ "%)"
      else if truthyNum m.contextTokens then
        intDecimal (jsRoundDiv (m.contextTokens.getD 0) 1000) ++ "k"
      else ""
    { name := projectName
      emoji := emoji
      model := if m.model ≠ "" then " (" ++ m.model ++ ")" else ""
      chatType := if m.chatType = "" then "unknown" else m.chatType
      shortId := shortId
      keyDisplay := keyDisplay
      isSubagent := isSubagent
      agentName := m.agentName.getD ""
      cwd := m.cwd
      contextTokens := contextTokens
      provider := m.provider.getD ""
      surface := m.surface.getD ""
      updatedAt := m.updatedAt.getD ""
      groupId := m.groupId.getD ""
      thinkingLevel := m.thinkingLevel.getD "" }

/-! ## `src/message.ts` — `buildMessage` -/

/-- One attempt of the anchored greedy regex `^(.+)-topic-(\d+)$` at split
position `i`. -/
def topicSplitAt (cs : List Char) (i : Nat) : Option (String × String) :=
  if i = 0 then none
  else
    let rest := cs.drop i
    if rest.take 7 = "-topic-".toList then
      let ds := rest.drop 7
      if ds ≠ [] ∧ ds.all (fun c => c.isDigit) then
        some (String.mk (cs.take i), String.mk ds)
      else none
    else none

/-- `groupKey.match(/^(.+)-topic-(\d+)$/)`: the greedy `(.+)` picks the
largest split position. -/
def topicSplit (s : String) : Option (String × String) :=
  let cs := s.toList
  ((List.range cs.length).reverse).findSome? (topicSplitAt cs)

/-- One attempt of `/\((\d+%)\)/` at the current position. -/
def tokenPctAt (cs : List Char) : Option String :=
  match cs with
  | '(' :: rest =>
    let ds := rest.takeWhile (fun c => c.isDigit)
    if ds ≠ [] ∧ (rest.drop ds.length).take 2 = ['%', ')'] then
      some (String.mk (ds ++ ['%']))
    else none
  | _ => none

/-- Leftmost match of `/\((\d+%)\)/` (`info.contextTokens?.match`). -/
def tokenPctScan : List Char → Option String
  | [] => none
  | c :: rest =>
    match tokenPctAt (c :: rest) with
    | some s => some s
    | none => tokenPctScan rest

/-- The session key and thread number `buildMessage` derives from the
group key (falling back to the first event's thread number). -/
def bmThread (groupKey : String) (events : List PendingEvent) :
    String × Option String :=
  match topicSplit groupKey with
  | some (sk, t) => (sk, some t)
  | none =>
    match events with
    | [] => (groupKey, none)
    | e :: _ =>
      (groupKey, if truthyStr e.threadNumber then e.threadNumber else none)

/-- The header line `buildMessage` assembles. -/
def bmHeader (cfg : Config) (meta : JMap SessionMetadata)
    (groupKey : String) (events : List PendingEvent) : String :=
  let skt := bmThread groupKey events
  let info := getProjectInfo cfg meta skt.1
  let subagentTag := if info.isSubagent then " [subagent]" else ""
  let threadTag :=
    match skt.2 with
    | some t => " [thread:" ++ t ++ "]"
    | none => ""
  let keyParts := jsSplitOn info.keyDisplay ":"
  let sessionType :=
    if keyParts.length ≥ 3 then
      let ktype := keyParts.getD 2 ""
      let action0 :=
        if keyParts.getD 4 "" ≠ "" then keyParts.getD 4 ""
        else keyParts.getD 3 ""
      let action :=
        if (action0.toList.all isHexDashChar ∧ action0.length ≥ 20) ∨
            (action0.toList.all (fun c => c.isDigit) ∧ action0.length ≥ 15)
          then String.mk (action0.toList.take 8)
        else action0
      if ktype ≠ "" ∧ ktype ≠ "main" then
        if action ≠ "" ∧ action ≠ ktype then ktype ++ ":" ++ action
        else ktype
      else ""
    else ""
  let tokenDisplay :=
    match tokenPctScan info.contextTokens.toList with
    | some cap => "📊" ++ cap
    | none => ""
  let metaParts :=
    (if sessionType ≠ "" then [sessionType] else []) ++
    (if tokenDisplay ≠ "" then [tokenDisplay] else []) ++
    (if info.thinkingLevel ≠ "" ∧ info.thinkingLevel ≠ "off" then
      [info.thinkingLevel] else []) ++
    (if info.updatedAt ≠ "" then [info.updatedAt] else [])
  info.emoji ++ " " ++ info.name ++ info.model ++ subagentTag ++ threadTag ++
    (if metaParts ≠ [] then " · " else "") ++ jsJoin " · " metaParts

/-- Whether the header is shown this time
(`(now - lastHeader) >= HEADER_INTERVAL_MS`). -/
def bmShowHeader (cfg : Config) (lht : JMap Int) (now : Int)
    (groupKey : String) : Bool :=
  decide (now - ((mapFind? lht groupKey).getD 0) ≥ cfg.headerIntervalMs)

/-- The overflow marker line `• … +N more`. -/
def overflowMarker (n : Int) : String := "• … +" ++ intDecimal n ++ " more"

/-- The event loop of `buildMessage`: append formatted lines while they
fit below `MAX_MESSAGE_LENGTH - 50`, else append the overflow marker and
stop.  Returns the lines and whether the loop broke for length. -/
def fmtLoop (cfg : Config) (total : Nat) :
    List PendingEvent → List String → Nat → List String × Bool
  | [], lines, _ => (lines, false)
  | e :: rest, lines, totalLen =>
    match formatEvent e with
    | none => fmtLoop cfg total rest lines totalLen
    | some f =>
      if (totalLen : Int) + f.length + 1 > (cfg.maxMessageLength : Int) - 50
      then
        let remaining : Int := (total : Int) - lines.length + 1
        (if remaining > 0 then lines ++ [overflowMarker remaining]
         else lines, true)
      else fmtLoop cfg total rest (lines ++ [f]) (totalLen + f.length + 1)

/-- `buildMessage(groupKey, events)` from `src/message.ts`, over the
metadata map, the module-level `lastHeaderTime` map and `Date.now()`.
Returns the text and the updated `lastHeaderTime`. -/
def buildMessage (cfg : Config) (meta : JMap SessionMetadata)
    (lht : JMap Int) (now : Int) (groupKey : String)
    (events : List PendingEvent) : String × JMap Int :=
  let header := bmHeader cfg meta groupKey events
  let showHeader := bmShowHeader cfg lht now groupKey
  let lht' := if showHeader then mapInsert lht groupKey now else lht
  let start :=
    if showHeader then ([header], header.length + 1)
    else (([] : List String), 0)
  let res := fmtLoop cfg events.length events start.1 start.2
  (jsJoin "\n" res.1, lht')

/-! ## `src/message.ts` — `sendMessage`

`sendMessage` spawns the `openclaw` CLI; the observable effect modelled is
the argument vector handed to `spawn` (or `none` when channel/target are
missing and the function returns early). -/

/-- `sendMessage(text)` from `src/message.ts`: the arguments handed to the
delivery command. -/
def sendMessage (cfg : Config) (text : String) : Option (List String) :=
  if cfg.channel = "" ∨ cfg.targetId = "" then none
  else
    some ["message", "send", "--channel", cfg.channel,
          "--target", cfg.targetId,
          "--message", truncateText text cfg.maxMessageLength, "--silent"]

/-- A one-event state used to witness the flush behaviour concretely. -/
def c4WitnessState : DState :=
  { initState with
      pending := mapInsert initState.pending "g"
        [{ type := "toolCall", timestamp := some 1, data := [],
           id := "a", sessionKey := "g", threadNumber := none }] }

/-! ## Timer-discipline invariant (for the batching state machine) -/

/-- The coupling between the Node runtime's armed timeouts and the
`batchTimers` map: every armed timeout is recorded in the map under its
key, handles are fresh, and no two armed timeouts share a handle. -/
structure TimerInv (st : DState) : Prop where
  mapped : ∀ p ∈ st.outstanding, mapFind? st.timersMap p.1 = some p.2
  fresh : ∀ p ∈ st.outstanding, p.2 < st.nextHandle
  nodupHandles : (st.outstanding.map Prod.snd).Nodup

/-- One step of the batching state machine: an `addEvent` call (with
arbitrary clock/cooldown/key/event), or an armed timer firing (Node
removes the one-shot timeout and runs its callback `flushEvents`). -/
inductive BStep (cfg : Config) : DState → DState → Prop where
  | add (st : DState) (now ra : Int) (sk : String) (ev : PendingEvent) :
      BStep cfg st (addEvent cfg now ra st sk ev)
  | fire (st : DState) (now ra : Int) (k : String) (h : Nat)
      (hmem : (k, h) ∈ st.outstanding) :
      BStep cfg st (flushEvents now ra
        { st with outstanding := st.outstanding.erase (k, h) } k)

/-! ## `src/watcher.ts` — file tailing and event extraction -/

/-- `/^[a-f0-9-]{36}(-topic-\d+)?\.jsonl$/` from `src/watcher.ts`. -/
def isValidSessionFile (f : String) : Bool :=
  let cs := f.toList
  let front := cs.take 36
  let rest := cs.drop 36
  front.length = 36 && front.all isHexDashChar &&
    (rest = ".jsonl".toList ||
      (rest.take 7 = "-topic-".toList &&
        (let tail36 := rest.drop 7
         let mid := tail36.take (tail36.length - 6)
         (!mid.isEmpty) && mid.all (fun c => c.isDigit) &&
           tail36.drop mid.length = ".jsonl".toList)))

/-- `getBaseSessionId(filename)` from `src/metadata.ts`: the captured
36-character id when the name matches
`/^([a-f0-9-]{36})(?:-topic-\d+)?\.jsonl$/`, else the name with a trailing
`.jsonl` stripped. -/
def getBaseSessionId (f : String) : String :=
  if isValidSessionFile f then String.mk (f.toList.take 36)
  else if ".jsonl".toList.isSuffixOf f.toList then
    String.mk (f.toList.take (f.toList.length - 6))
  else f

/-- One attempt of the regex `-topic-(\d+)\.jsonl` (anchored at the end)
at the current position. -/
def getThreadNumberAt (cs : List Char) : Option String :=
  if cs.take 7 = "-topic-".toList then
    let after := cs.drop 7
    let ds := after.takeWhile (fun c => c.isDigit)
    if ds ≠ [] ∧ after.drop ds.length = ".jsonl".toList then
      some (String.mk ds)
    else none
  else none

/-- Leftmost match for `getThreadNumber(filename)` from
`src/metadata.ts`. -/
def getThreadNumberL : List Char → Option String
  | [] => none
  | c :: rest =>
    match getThreadNumberAt (c :: rest) with
    | some s => some s
    | none => getThreadNumberL rest

/-- `getThreadNumber(filename)`. -/
def getThreadNumber (f : String) : Option String := getThreadNumberL f.toList

/-- `` `${row.id || Date.now()}` `` — the id suffix used for most event
ids. -/
def idOr (row : Row) (now : Int) : String :=
  match row.id with
  | some s => if s = "" then intDecimal now else s
  | none => intDecimal now

/-- `` `${row.id}` `` (no fallback): `undefined` renders as
`"undefined"`. -/
def tmplOpt (o : Option String) : String := o.getD "undefined"

/-- `threadNumber || undefined` on the events the watcher emits. -/
def tnOrUndef (tn : Option String) : Option String :=
  match tn with
  | some t => if t = "" then none else some t
  | none => none

/-- `` threadNumber ? `${sessionKey}-topic-${threadNumber}` : sessionKey ``
(the group key the tool-result merge looks up). -/
def threadGroupKey (sk : String) (tn : Option String) : String :=
  match tn with
  | some t => if t = "" then sk else sk ++ "-topic-" ++ t
  | none => sk

/-- The `if (!hasSeenId(id)) { ... }` pattern: run `hasSeenId` (which
records the id as a side effect) and perform `act` only on a miss. -/
def gateEmit (cap : Nat) (st : DState) (id : String)
    (act : DState → DState) : DState :=
  let r := hasSeenId cap st.seen id
  let st' := { st with seen := r.2 }
  if r.1 then st' else act st'

/-- The `type === "session"` branch of `tailFile`. -/
def branchSession (sessionKey : String) (st : DState) (row : Row) :
    DState :=
  if row.type = some "session" ∧ truthyStr row.cwd then
    let cwd := row.cwd.getD ""
    let parts := jsSplitOn cwd "/"
    let lastPart := parts.getLastD ""
    let projectName := if lastPart = "" then sessionKey else lastPart
    match mapFind? st.meta sessionKey with
    | some existing =>
      let meta' := mapInsert st.meta sessionKey
        { existing with cwd := cwd, projectName := projectName }
      { st with meta := meta' }
    | none =>
      let meta' := mapInsert st.meta sessionKey
        { cwd := cwd, projectName := projectName, model := "",
          chatType := "unknown", key := "" }
      { st with meta := meta' }
  else st

/-- The `type === "thinking_level_change"` branch of `tailFile`. -/
def branchThinkingLevel (cfg : Config) (now ra : Int) (sk : String)
    (tn : Option String) (st : DState) (row : Row) : DState :=
  if row.type = some "thinking_level_change" then
    let level :=
      match row.thinkingLevel with
      | some l => if l = "" then "unknown" else l
      | none => "unknown"
    let st :=
      match mapFind? st.meta sk with
      | some ex =>
        let meta' := mapInsert st.meta sk { ex with thinkingLevel := some level }
        { st with meta := meta' }
      | none => st
    let id := "thinking_level:" ++ idOr row now
    gateEmit cfg.maxSeenIds st id (fun st => addEvent cfg now ra st sk
      { type := "thinking_level", id := id, sessionKey := sk,
        timestamp := row.timestamp, data := [("level", jstr level)],
        threadNumber := tnOrUndef tn })
  else st

/-- The `type === "model_change"` branch of `tailFile`. -/
def branchModelChange (cfg : Config) (now ra : Int) (sk : String)
    (tn : Option String) (st : DState) (row : Row) : DState :=
  if row.type = some "model_change" ∧ truthyStr row.modelId then
    let newModel := row.modelId.getD ""
    let oldModel :=
      match mapFind? st.meta sk with
      | some ex => ex.model
      | none => ""
    let st :=
      match mapFind? st.meta sk with
      | some ex =>
        let meta' := mapInsert st.meta sk { ex with model := newModel }
        { st with meta := meta' }
      | none => st
    let id := "model_change:" ++ idOr row now
    gateEmit cfg.maxSeenIds st id (fun st => addEvent cfg now ra st sk
      { type := "model_change", id := id, sessionKey := sk,
        timestamp := row.timestamp,
        data := [("oldModel", jstr oldModel), ("newModel", jstr newModel)],
        threadNumber := tnOrUndef tn })
  else st

/-- The `customType === "model-snapshot"` branch of `tailFile`. -/
def branchSnapshot (sk : String) (st : DState) (row : Row) : DState :=
  if row.type = some "custom" ∧ row.customType = some "model-snapshot" ∧
      truthyStr row.dataModelId then
    match mapFind? st.meta sk with
    | some ex =>
      if ex.model = "" then
        let meta' := mapInsert st.meta sk { ex with model := row.dataModelId.getD "" }
        { st with meta := meta' }
      else st
    | none => st
  else st

/-- The `type === "error"` branch of `tailFile`.  When `row.error` is
falsy the truthy `row.message` object is stringified
(`"[object Object]"`). -/
def branchError (cfg : Config) (now ra : Int) (sk : String)
    (tn : Option String) (st : DState) (row : Row) : DState :=
  if row.type = some "error" ∧ (truthyStr row.error ∨ row.message.isSome)
  then
    let msgStr :=
      if row.message.isSome then "[object Object]" else "Unknown error"
    let errorMsg :=
      match row.error with
      | some e => if e = "" then msgStr else e
      | none => msgStr
    let id := "error:" ++ idOr row now ++ ":" ++
      String.mk (errorMsg.toList.take 50)
    gateEmit cfg.maxSeenIds st id (fun st => addEvent cfg now ra st sk
      { type := "error", id := id, sessionKey := sk,
        timestamp := row.timestamp,
        data := [("error", jstr errorMsg), ("message", jstr errorMsg)],
        threadNumber := tnOrUndef tn })
  else st

/-- The token-usage update (`row?.message?.usage?.totalTokens`). -/
def branchUsage (sk : String) (st : DState) (row : Row) : DState :=
  match row.message with
  | some msg =>
    if truthyNum msg.usage then
      match mapFind? st.meta sk with
      | some ex =>
        let meta' := mapInsert st.meta sk { ex with usedTokens := msg.usage }
        { st with meta := meta' }
      | none => st
    else st
  | none => st

/-- One attempt of `/\[Image\]\s*User text:\s*([\s\S]+)/` at the current
position (greedy `\s*` giving one character back to the mandatory capture
when needed). -/
def imageUserTextAt (cs : List Char) : Option String :=
  if cs.take 7 = "[Image]".toList then
    let r1 := (cs.drop 7).dropWhile Char.isWhitespace
    if r1.take 10 = "User text:".toList then
      let r2 := r1.drop 10
      let ws := r2.takeWhile Char.isWhitespace
      let rest := r2.drop ws.length
      if rest ≠ [] then some (String.mk rest)
      else
        match ws.reverse with
        | c :: _ => some (String.mk [c])
        | [] => none
    else none
  else none

/-- Leftmost match of the `User text:` extraction regex. -/
def findImageUserText : List Char → Option String
  | [] => none
  | c :: rest =>
    match imageUserTextAt (c :: rest) with
    | some s => some s
    | none => findImageUserText rest

/-- The user-message cleanup heuristic of `tailFile`. -/
def cleanUserText (text0 : String) : String :=
  match findImageUserText text0.toList with
  | some cap => jsTrim cap
  | none =>
    if jsIncludes text0 "Conversation info (untrusted metadata)" then
      let parts := jsSplitOn text0 "```"
      if parts.length > 1 then
        let lastPart := jsTrim (parts.getLastD "")
        if lastPart ≠ "" ∧ ¬ (jsIncludes lastPart "metadata") = true ∧
            lastPart ≠ "...." ∧ lastPart.length > 5 then
          lastPart
        else ""
      else ""
    else text0

/-- The `role === "user"` branch of `tailFile`. -/
def branchUser (cfg : Config) (now ra : Int) (sk : String)
    (tn : Option String) (st : DState) (row : Row) (msg : RowMessage) :
    DState :=
  if msg.role = some "user" ∧ msg.content.isSome then
    let items := msg.content.getD []
    let textItem := items.find? (fun c => c.type = some "text")
    let text0 := (textItem.bind (·.text)).getD ""
    let text := cleanUserText text0
    let sender := extractSenderName items
    let id := "user_message:" ++ idOr row now
    gateEmit cfg.maxSeenIds st id (fun st => addEvent cfg now ra st sk
      { type := "user_message", id := id, sessionKey := sk,
        timestamp := row.timestamp,
        data := [("sender", jstr sender), ("preview", jstr text)],
        threadNumber := tnOrUndef tn })
  else st

/-- Per-item processing (thinking / toolCall) of an assistant message's
`content` array. -/
def processContentItem (cfg : Config) (now ra : Int) (sk : String)
    (tn : Option String) (row : Row) (st : DState) (item : ContentItem) :
    DState :=
  let st :=
    if item.type = some "thinking" ∧ truthyStr item.thinking then
      let th := item.thinking.getD ""
      let id := "thinking:" ++ tmplOpt row.id ++ ":" ++
        String.mk (th.toList.take 50)
      gateEmit cfg.maxSeenIds st id (fun st => addEvent cfg now ra st sk
        { type := "thinking", id := id, sessionKey := sk,
          timestamp := row.timestamp, data := [("preview", jstr th)],
          threadNumber := tnOrUndef tn })
    else st
  if item.type = some "toolCall" then
    let name := item.name.getD ""
    let args := item.arguments.getD []
    let tid0 := jsTrim (item.id.getD "")
    let toolId :=
      if tid0 = "" then
        name ++ ":" ++ String.mk ((jsonStringify (jobj args)).toList.take 100)
      else tid0
    gateEmit cfg.maxSeenIds st toolId (fun st =>
      let toolTs' := mapInsert st.toolTs toolId
        { timestamp := row.timestamp, sessionKey := sk }
      let st := { st with toolTs := toolTs' }
      addEvent cfg now ra st sk
        { type := "toolCall", id := toolId, sessionKey := sk,
          timestamp := row.timestamp,
          data := [("name", jstr name), ("args", jobj args),
                   ("isError", jbool false), ("durationMs", jnull)],
          threadNumber := tnOrUndef tn })
  else st

/-- The `role === "assistant"` branch of `tailFile` (thinking/tool-call
items, then the completion event on a terminal stop reason). -/
def branchAssistant (cfg : Config) (now ra : Int) (sk : String)
    (tn : Option String) (st : DState) (row : Row) (msg : RowMessage) :
    DState :=
  if msg.role = some "assistant" then
    let st :=
      match msg.content with
      | some items => items.foldl (processContentItem cfg now ra sk tn row) st
      | none => st
    if msg.stopReason = some "stop" ∨ msg.stopReason = some "end_turn" then
      let id := "complete:" ++ idOr row now
      gateEmit cfg.maxSeenIds st id (fun st =>
        let preview :=
          match msg.content with
          | some items =>
            ((items.find? (fun c => c.type = some "text")).bind
              (·.text)).getD ""
          | none => ""
        addEvent cfg now ra st sk
          { type := "assistant_complete", id := id, sessionKey := sk,
            timestamp := row.timestamp,
            data := [("tokens",
                       match msg.usage with
                       | some u => jnum u
                       | none => jnull),
                     ("stopReason", jstr (msg.stopReason.getD "")),
                     ("messagePreview", jstr preview)],
            threadNumber := tnOrUndef tn })
    else st
  else st

/-- Replace the first element satisfying the predicate (the in-place
mutation of the event object `events.find(...)` returns). -/
def updateFirst (p : PendingEvent → Bool) (f : PendingEvent → PendingEvent) :
    List PendingEvent → List PendingEvent
  | [] => []
  | e :: rest => if p e then f e :: rest else e :: updateFirst p f rest

/-- `data.name === s` (strict equality against a string literal). -/
def dataNameIs (data : List (String × JVal)) (s : String) : Bool :=
  match getField data "name" with
  | some (jstr t) => t = s
  | _ => false

/-- The in-place mutation a matching tool-result applies to the pending
tool-call event. -/
def mergeToolResult (row : Row) (msg : RowMessage) (ev : PendingEvent) :
    PendingEvent :=
  let data := ev.data
  let data := setField data "isError" (jbool (msg.isError = some true))
  let data :=
    if truthyStr (msg.details.bind (·.diff)) ∧
        (dataNameIs data "edit" || dataNameIs data "write") = true then
      setField data "diffStats"
        (diffToJVal (parseDiffStats (msg.details.bind (·.diff))))
    else data
  let resultTs := row.timestamp
  let data :=
    if truthyNum (msg.details.bind (·.durationMs)) then
      setField data "durationMs"
        (jnum ((msg.details.bind (·.durationMs)).getD 0))
    else if truthyNum resultTs ∧ truthyNum ev.timestamp then
      setField data "durationMs"
        (jnum (resultTs.getD 0 - ev.timestamp.getD 0))
    else data
  { ev with data := data }

/-- The matching predicate of the tool-result merge. -/
def matchesToolCall (toolCallId : String) (e : PendingEvent) : Bool :=
  e.id = toolCallId ∧ (e.type = "toolCall" ∨ e.type = "tool_call")

/-- The `role === "toolResult"` branch of `tailFile`: merge into the
still-pending tool-call event (silently a no-op when the call is unknown
or already flushed). -/
def branchToolResult (sk : String) (tn : Option String) (st : DState)
    (row : Row) (msg : RowMessage) : DState :=
  if msg.role = some "toolResult" ∧ truthyStr msg.toolCallId then
    let toolCallId := msg.toolCallId.getD ""
    match mapFind? st.toolTs toolCallId with
    | none => st
    | some _callInfo =>
      let groupKey := threadGroupKey sk tn
      match mapFind? st.pending groupKey with
      | none => st
      | some events =>
        match events.find? (matchesToolCall toolCallId) with
        | none => st
        | some _ =>
          let pending' := mapInsert st.pending groupKey
            (updateFirst (matchesToolCall toolCallId)
              (mergeToolResult row msg) events)
          { st with pending := pending' }
  else st

/-- Processing of one parsed log line by `tailFile`, in source order. -/
def processRow (cfg : Config) (now ra : Int) (sessionKey : String)
    (threadNumber : Option String) (st : DState) (row : Row) : DState :=
  let st := branchSession sessionKey st row
  let st := branchThinkingLevel cfg now ra sessionKey threadNumber st row
  let st := branchModelChange cfg now ra sessionKey threadNumber st row
  let st := branchSnapshot sessionKey st row
  let st := branchError cfg now ra sessionKey threadNumber st row
  let st := branchUsage sessionKey st row
  match row.message with
  | none => st
  | some msg =>
    let st := branchUser cfg now ra sessionKey threadNumber st row msg
    let st := branchAssistant cfg now ra sessionKey threadNumber st row msg
    branchToolResult sessionKey threadNumber st row msg

/-- `Buffer.byteLength(line, "utf8") + 1` — the bytes one line contributes
(files are newline-terminated). -/
def lineByteLen (l : String) : Nat := l.utf8ByteSize + 1

/-- Total byte size of a (newline-terminated) file given as its lines. -/
def fileBytes (lines : List String) : Nat := (lines.map lineByteLen).sum

/-- What a UTF-8 read stream starting at byte `off` inside a line yields
(a mid-character offset skips the char). -/
def dropBytes : List Char → Nat → List Char
  | [], _ => []
  | c :: rest, off =>
    if off = 0 then c :: rest
    else if c.utf8Size ≤ off then dropBytes rest (off - c.utf8Size)
    else rest

/-- The lines `createReadStream(file, { start: offset })` + `readline`
deliver. -/
def linesAfter : List String → Nat → List String
  | [], _ => []
  | l :: ls, off =>
    if off = 0 then l :: ls
    else if lineByteLen l ≤ off then linesAfter ls (off - lineByteLen l)
    else String.mk (dropBytes l.toList off) :: ls

/-- The read loop of `tailFile`: skip blank lines (without counting their
bytes), advance the offset by each non-blank line's bytes, and process the
lines that `JSON.parse` accepts. -/
def tailLoop (cfg : Config) (parse : String → Option Row) (now ra : Int)
    (sk : String) (tn : Option String) :
    List String → Nat → DState → Nat × DState
  | [], newOffset, st => (newOffset, st)
  | line :: rest, newOffset, st =>
    if jsTrim line = "" then tailLoop cfg parse now ra sk tn rest newOffset st
    else
      let newOffset := newOffset + lineByteLen line
      match parse line with
      | none => tailLoop cfg parse now ra sk tn rest newOffset st
      | some row =>
        tailLoop cfg parse now ra sk tn rest newOffset
          (processRow cfg now ra sk tn st row)

/-- The bytes the read loop advances the offset by: every non-blank line's
UTF-8 bytes plus its newline (blank lines contribute nothing). -/
def consumedBytes (lines : List String) : Nat :=
  (lines.map (fun l => if jsTrim l = "" then 0 else lineByteLen l)).sum

/-- `tailFile(filename, agentName)` from `src/watcher.ts`.  The file is
given as `none` (stat failed) or its newline-terminated lines;
`debugProcessAll` is `SESSION_AUDIT_DEBUG_PROCESS_ALL === "true"`. -/
def tailFile (cfg : Config) (debugProcessAll : Bool)
    (parse : String → Option Row) (now ra : Int)
    (agentName filename : String) (file : Option (List String))
    (st : DState) : DState :=
  if isValidSessionFile filename then
    match file with
    | none => st
    | some lines =>
      if fileBytes lines > cfg.maxFileSize then st
      else
        let offsetKey := agentName ++ ":" ++ filename
        let st :=
          if (mapFind? st.offsets offsetKey).isNone then
            let init := if debugProcessAll then 0 else fileBytes lines
            { st with offsets := mapInsert st.offsets offsetKey init }
          else st
        let offset := (mapFind? st.offsets offsetKey).getD 0
        let sessionKey := getBaseSessionId filename
        let threadNumber := getThreadNumber filename
        let r := tailLoop cfg parse now ra sessionKey threadNumber
          (linesAfter lines offset) offset st
        { r.2 with offsets := mapInsert r.2.offsets offsetKey r.1 }
  else st

/-- Everything except the metadata map is untouched (the effect of the
metadata-only branches of `processRow`). -/
def MetaOnly (st st' : DState) : Prop :=
  st'.offsets = st.offsets ∧ st'.seen = st.seen ∧
  st'.pending = st.pending ∧ st'.timersMap = st.timersMap ∧
  st'.outstanding = st.outstanding ∧ st'.nextHandle = st.nextHandle ∧
  st'.lastEventTime = st.lastEventTime ∧ st'.toolTs = st.toolTs ∧
  st'.sent = st.sent ∧ st'.emitLog = st.emitLog

/-- Concrete rows for the tool-call/tool-result merge scenario
(Scenario B). -/
def c8Row1 : Row :=
  { type := none, id := some "r1", timestamp := some 1000,
    message := some
      { role := some "assistant",
        content := some
          [{ type := some "toolCall", id := some "abc",
             name := some "edit", arguments := some [] }] } }

/-- The message of the matching tool-result row: `toolCallId=abc` with the
diff body `"+line1\n-line2\n+line3"`. -/
def c8Msg2 : RowMessage :=
  { role := some "toolResult", toolCallId := some "abc",
    details := some { diff := some "+line1\n-line2\n+line3" } }

/-- The matching tool-result row. -/
def c8Row2 : Row :=
  { timestamp := some 2000, message := some c8Msg2 }

/-- Growth of the dedup/emission state across a processing step: the seen
set only grows (staying within capacity), and — as long as no eviction has
occurred, detectable as the seen set staying strictly below capacity — the
step appends to the emit log a duplicate-free batch of ids that were not
seen before the step and are seen after it. -/
def Grow (cap : Nat) (st st' : DState) : Prop :=
  st.seen.length ≤ cap →
    st.seen.length ≤ st'.seen.length ∧ st'.seen.length ≤ cap ∧
    (st'.seen.length < cap → st.seen ⊆ st'.seen) ∧
    ∃ new : List String, st'.emitLog = st.emitLog ++ new ∧
      (st'.seen.length < cap →
        new.Nodup ∧ ∀ id ∈ new, id ∈ st'.seen ∧ id ∉ st.seen)

/-- The tail pass of `tailFile` once the stored offset is present: run the
read loop from the stored offset and store the advanced offset back. -/
def tailAfter (cfg : Config) (parse : String → Option Row) (now ra : Int)
    (agent fname : String) (lines : List String) (st1 : DState) : DState :=
  let okey := agent ++ ":" ++ fname
  let off := (mapFind? st1.offsets okey).getD 0
  let r := tailLoop cfg parse now ra (getBaseSessionId fname)
    (getThreadNumber fname) (linesAfter lines off) off st1
  { r.2 with offsets := mapInsert r.2.offsets okey r.1 }

/-- A start state whose offset for the tailed file is already saved
(value `0`). -/
def c2State : DState :=
  { initState with offsets := mapInsert JMap.empty "main:aaaaaaaa-aaaa-aaaa-aaaa-aaaaaaaaaaaa.jsonl" 0 }

-- ===== THEOREMS =====

/-! ## Helper lemmas about the maps -/

theorem mapFind?_mapErase_self {α : Type} (m : JMap α) (k : String) :
    mapFind? (mapErase m k) k = none := by
  simp [mapFind?, mapErase]

theorem mapFind?_mapErase_ne {α : Type} (m : JMap α) (k k' : String)
    (h : k' ≠ k) : mapFind? (mapErase m k) k' = mapFind? m k' := by
  simp [mapFind?, mapErase, h]

theorem mapFind?_mapInsert_self {α : Type} (m : JMap α) (k : String)
    (v : α) : mapFind? (mapInsert m k v) k = some v := by
  simp [mapFind?, mapInsert]

theorem mapFind?_mapInsert_ne {α : Type} (m : JMap α) (k k' : String)
    (v : α) (h : k' ≠ k) : mapFind? (mapInsert m k v) k' = mapFind? m k' := by
  simp [mapFind?, mapInsert, h]

/-- A nodup list whose elements are all equal has length at most one. -/
theorem length_le_one_of_nodup_of_all_eq {α : Type} (l : List α) (x : α)
    (hnd : l.Nodup) (hall : ∀ a ∈ l, a = x) : l.length ≤ 1 := by
  match l with
  | [] => simp
  | [a] => simp
  | a :: b :: t =>
    exfalso
    have ha : a = x := hall a (by simp)
    have hb : b = x := hall b (by simp)
    have : a ≠ b := by
      have := List.nodup_cons.mp hnd
      exact fun hh => this.1 (hh ▸ List.mem_cons_self b t)
    exact this (ha.trans hb.symm)

/-! ## Helper lemmas -/

theorem jsJoin_nil (sep : String) : jsJoin sep [] = "" := rfl

theorem hasSeenId_length_le (cap : Nat) (seen : List String) (id : String)
    (h : seen.length ≤ cap) : (hasSeenId cap seen id).2.length ≤ cap := by
  unfold hasSeenId
  split
  · simpa using h
  · dsimp only
    split
    · simp only [List.length_drop]
      omega
    · rename_i h2
      simp only [List.length_append, List.length_cons] at h2 ⊢
      omega

theorem hasSeenIdAll_length_le (cap : Nat) (seen : List String)
    (ids : List String) (h : seen.length ≤ cap) :
    (hasSeenIdAll cap seen ids).length ≤ cap := by
  induction ids generalizing seen with
  | nil => simpa [hasSeenIdAll] using h
  | cons i is ih =>
    simp only [hasSeenIdAll, List.foldl_cons] at *
    exact ih _ (hasSeenId_length_le cap seen i h)

/-- Characterization of `hasSeenId`: membership test, and on a miss the
suffix of `seen ++ [id]` of length at most `cap`. -/
theorem hasSeenId_eq (cap : Nat) (seen : List String) (id : String) :
    hasSeenId cap seen id =
      if id ∈ seen then (true, seen)
      else (false, (seen ++ [id]).drop (seen.length + 1 - cap)) := by
  unfold hasSeenId
  by_cases hmem : id ∈ seen
  · simp [hmem]
  · simp only [hmem, if_false]
    by_cases hlen : (seen ++ [id]).length > cap
    · simp only [if_pos hlen]
      congr 1
      simp [List.length_append]
    · simp only [if_neg hlen]
      have h0 : seen.length + 1 - cap = 0 := by
        simp [List.length_append] at hlen
        omega
      simp [h0]

/-! ## Claim C6 — dedup-set bounding and FIFO eviction -/

/-- C6: starting from the empty seen-id set, after any number of
insertions through `hasSeenId` the set's size never exceeds the capacity
`cap` (`MAX_SEEN_IDS`); moreover each insertion keeps exactly the most
recently inserted ids — the result of one `hasSeenId` call is the suffix
of `seen ++ [id]` of length at most `cap`, i.e. the oldest entries are the
ones evicted. -/
theorem hasSeenId_bound_and_fifo (cap : Nat) (ids : List String) :
    (hasSeenIdAll cap [] ids).length ≤ cap ∧
    (∀ (s : List String) (id : String),
      (hasSeenId cap s id).2 =
        if id ∈ s then s else (s ++ [id]).drop (s.length + 1 - cap)) := by
  constructor
  · exact hasSeenIdAll_length_le cap [] ids (by simp)
  · intro s id
    rw [hasSeenId_eq]
    by_cases hmem : id ∈ s <;> simp [hmem]

/-! ## Claim C7 — check-and-set semantics of `hasSeenId` -/

/-- C7: `hasSeenId(id)` returns `true` iff the id was already in the seen
set; when it returns `false` it has added the id as a side effect, so an
immediately repeated call with the same id returns `true` (the capacity is
at least one, as `MAX_SEEN_IDS = 5000` is). -/
theorem hasSeenId_check_and_set (cap : Nat) (seen : List String)
    (id : String) (hcap : 1 ≤ cap) :
    ((hasSeenId cap seen id).1 = true ↔ id ∈ seen) ∧
    ((hasSeenId cap seen id).1 = false → id ∈ (hasSeenId cap seen id).2) ∧
    (hasSeenId cap (hasSeenId cap seen id).2 id).1 = true := by
  have hmemres : id ∈ (hasSeenId cap seen id).2 := by
    rw [hasSeenId_eq]
    by_cases hmem : id ∈ seen
    · simp [hmem]
    · have hle : seen.length + 1 - cap ≤ seen.length := by omega
      simp only [hmem, if_false]
      rw [List.drop_append_of_le_length hle]
      simp
  refine ⟨?_, fun _ => hmemres, ?_⟩
  · rw [hasSeenId_eq]
    by_cases hmem : id ∈ seen <;> simp [hmem]
  · conv_lhs => rw [hasSeenId_eq]
    simp [hmemres]

/-- C7 witness: concrete check-and-set run at `MAX_SEEN_IDS = 5000`. -/
theorem hasSeenId_check_and_set_witness :
    (1 ≤ 5000) ∧
    ((hasSeenId 5000 [] "evt-1").1 = false →
      "evt-1" ∈ (hasSeenId 5000 [] "evt-1").2) :=
  ⟨by decide, (hasSeenId_check_and_set 5000 [] "evt-1" (by decide)).2.1⟩

/-! ## Claim C4 — `flushEvents` detaches before async work and drops under
cooldown -/

/-- C4: `flushEvents(groupKey)` removes the batch from the pending map and
clears the timer entry in every case (this happens before the function's
first `await`), leaves the armed timers untouched, and when
`Date.now() < getRetryAfter()` the detached batch is silently dropped:
nothing is sent, the batch is not re-inserted and no timer is armed for
it. -/
theorem flushEvents_detach_and_cooldown_drop (now ra : Int) (st : DState)
    (groupKey : String) :
    (flushEvents now ra st groupKey).pending = mapErase st.pending groupKey ∧
    (flushEvents now ra st groupKey).timersMap =
      mapErase st.timersMap groupKey ∧
    mapFind? (flushEvents now ra st groupKey).pending groupKey = none ∧
    mapFind? (flushEvents now ra st groupKey).timersMap groupKey = none ∧
    (flushEvents now ra st groupKey).outstanding = st.outstanding ∧
    (now < ra → (flushEvents now ra st groupKey).sent = st.sent) := by
  unfold flushEvents
  cases hp : mapFind? st.pending groupKey with
  | none =>
    exact ⟨rfl, rfl, mapFind?_mapErase_self _ _, mapFind?_mapErase_self _ _,
      rfl, fun _ => rfl⟩
  | some events =>
    by_cases hlen : events.length = 0
    · simp only [hlen, if_pos rfl]
      exact ⟨rfl, rfl, mapFind?_mapErase_self _ _, mapFind?_mapErase_self _ _,
        rfl, fun _ => rfl⟩
    · simp only [hlen, if_neg hlen]
      by_cases hra : now < ra
      · simp only [if_pos hra]
        exact ⟨rfl, rfl, mapFind?_mapErase_self _ _,
          mapFind?_mapErase_self _ _, rfl, fun _ => rfl⟩
      · simp only [if_neg hra]
        exact ⟨rfl, rfl, mapFind?_mapErase_self _ _,
          mapFind?_mapErase_self _ _, rfl, fun h => absurd h hra⟩

/-- C4 witness: a concrete rate-limited flush (now `0 <` retry-after `10`)
on a state holding one pending event. -/
theorem flushEvents_detach_witness :
    mapFind? (flushEvents 0 10 c4WitnessState "g").pending "g" = none ∧
    ((0 : Int) < 10 →
      (flushEvents 0 10 c4WitnessState "g").sent = c4WitnessState.sent) :=
  ⟨(flushEvents_detach_and_cooldown_drop 0 10 c4WitnessState "g").2.2.1,
   (flushEvents_detach_and_cooldown_drop 0 10 c4WitnessState "g").2.2.2.2.2⟩

/-- `jsSlice s 0 a` for a natural bound within the string: the first `a`
characters. -/
theorem jsSlice_zero_nat (s : String) (a : Nat) (ha : a ≤ s.length) :
    jsSlice s 0 (a : Int) = String.mk (s.toList.take a) := by
  unfold jsSlice
  have h1 : ¬ ((0 : Int) < 0) := by omega
  have h2 : ¬ ((a : Int) < 0) := by omega
  have hlen0 : (0 : Int) ≤ (s.length : Int) := by omega
  have hmin0 : min (0 : Int) (s.length : Int) = 0 := min_eq_left hlen0
  have hmina : min ((a : Int)) ((s.length : Int)) = (a : Int) :=
    min_eq_left (by exact_mod_cast ha)
  simp only [if_neg h1, if_neg h2, hmin0, hmina, Int.toNat_zero,
    Int.toNat_natCast, List.drop_zero, Nat.sub_zero]

/-! ## Claim C10 — `truncateText` and `sendMessage` -/

/-- C10: for `maxLen ≥ 3`, `truncateText` returns the text unchanged when
it fits, else the first `maxLen - 3` characters followed by `"..."` (a
string of length exactly `maxLen`), so the result never exceeds `maxLen`
characters; and `sendMessage` hands the delivery command exactly the text
truncated to the configured maximum message length. -/
theorem truncateText_bound_and_sendMessage (text : String) (maxLen : Nat)
    (hm : 3 ≤ maxLen) (cfg : Config) :
    (text.length ≤ maxLen → truncateText text maxLen = text) ∧
    (maxLen < text.length →
      truncateText text maxLen =
        String.mk (text.toList.take (maxLen - 3)) ++ "..." ∧
      (truncateText text maxLen).length = maxLen) ∧
    (truncateText text maxLen).length ≤ maxLen ∧
    (∀ args, sendMessage cfg text = some args →
      args = ["message", "send", "--channel", cfg.channel,
              "--target", cfg.targetId,
              "--message", truncateText text cfg.maxMessageLength,
              "--silent"]) := by
  have hslice : maxLen < text.length →
      truncateText text maxLen =
        String.mk (text.toList.take (maxLen - 3)) ++ "..." := by
    intro hlt
    have hne : ¬ text = "" := by
      intro hh
      rw [hh] at hlt
      simp at hlt
    have hnle : ¬ text.length ≤ maxLen := by omega
    unfold truncateText
    rw [if_neg hne, if_neg hnle]
    have hcast : (maxLen : Int) - 3 = ((maxLen - 3 : Nat) : Int) := by omega
    rw [hcast, jsSlice_zero_nat text (maxLen - 3) (by omega)]
  have hmklen : ∀ l : List Char, (String.mk l).length = l.length :=
    fun _ => rfl
  have htolist : text.toList.length = text.length := rfl
  have hlen : maxLen < text.length →
      (truncateText text maxLen).length = maxLen := by
    intro hlt
    rw [hslice hlt]
    rw [String.length_append, hmklen, List.length_take]
    have hdots : ("..." : String).length = 3 := rfl
    rw [hdots, htolist]
    omega
  refine ⟨?_, fun hlt => ⟨hslice hlt, hlen hlt⟩, ?_, ?_⟩
  · intro hle
    unfold truncateText
    by_cases hne : text = ""
    · simp [hne]
    · rw [if_neg hne, if_pos hle]
  · by_cases hlt : maxLen < text.length
    · exact le_of_eq (hlen hlt)
    · have hle : text.length ≤ maxLen := by omega
      unfold truncateText
      by_cases hne : text = ""
      · rw [if_pos hne]
        have : ("" : String).length = 0 := rfl
        omega
      · rw [if_neg hne, if_pos hle]
        exact hle
  · intro args hargs
    unfold sendMessage at hargs
    split at hargs
    · exact absurd hargs (by simp)
    · exact (Option.some_inj.mp hargs).symm

/-- C10 witness: concrete truncation at `maxLen = 5`. -/
theorem truncateText_bound_witness :
    (3 ≤ 5) ∧ (truncateText "abcdefgh" 5).length ≤ 5 :=
  ⟨by decide,
   (truncateText_bound_and_sendMessage "abcdefgh" 5 (by decide)
      defaultConfig).2.2.1⟩

/-! ## Structural lemmas about `flushEvents` and `scheduleFlush` -/

theorem flushEvents_pending (now ra : Int) (st : DState) (k : String) :
    (flushEvents now ra st k).pending = mapErase st.pending k := by
  unfold flushEvents
  cases mapFind? st.pending k with
  | none => rfl
  | some events =>
    by_cases h : events.length = 0
    · simp only [if_pos h]
    · simp only [if_neg h]
      by_cases hra : now < ra <;> simp only [if_pos, if_neg, hra, ite_true,
        ite_false]

theorem flushEvents_timersMap (now ra : Int) (st : DState) (k : String) :
    (flushEvents now ra st k).timersMap = mapErase st.timersMap k := by
  unfold flushEvents
  cases mapFind? st.pending k with
  | none => rfl
  | some events =>
    by_cases h : events.length = 0
    · simp only [if_pos h]
    · simp only [if_neg h]
      by_cases hra : now < ra <;> simp only [if_pos, if_neg, hra, ite_true,
        ite_false]

theorem flushEvents_outstanding (now ra : Int) (st : DState) (k : String) :
    (flushEvents now ra st k).outstanding = st.outstanding := by
  unfold flushEvents
  cases mapFind? st.pending k with
  | none => rfl
  | some events =>
    by_cases h : events.length = 0
    · simp only [if_pos h]
    · simp only [if_neg h]
      by_cases hra : now < ra <;> simp only [if_pos, if_neg, hra, ite_true,
        ite_false]

theorem flushEvents_nextHandle (now ra : Int) (st : DState) (k : String) :
    (flushEvents now ra st k).nextHandle = st.nextHandle := by
  unfold flushEvents
  cases mapFind? st.pending k with
  | none => rfl
  | some events =>
    by_cases h : events.length = 0
    · simp only [if_pos h]
    · simp only [if_neg h]
      by_cases hra : now < ra <;> simp only [if_pos, if_neg, hra, ite_true,
        ite_false]

theorem flushEvents_seen (now ra : Int) (st : DState) (k : String) :
    (flushEvents now ra st k).seen = st.seen := by
  unfold flushEvents
  cases mapFind? st.pending k with
  | none => rfl
  | some events =>
    by_cases h : events.length = 0
    · simp only [if_pos h]
    · simp only [if_neg h]
      by_cases hra : now < ra <;> simp only [if_pos, if_neg, hra, ite_true,
        ite_false]

theorem flushEvents_emitLog (now ra : Int) (st : DState) (k : String) :
    (flushEvents now ra st k).emitLog = st.emitLog := by
  unfold flushEvents
  cases mapFind? st.pending k with
  | none => rfl
  | some events =>
    by_cases h : events.length = 0
    · simp only [if_pos h]
    · simp only [if_neg h]
      by_cases hra : now < ra <;> simp only [if_pos, if_neg, hra, ite_true,
        ite_false]

/-- Removing an armed timer preserves the timer invariant. -/
theorem timerInv_erase (st : DState) (q : String × Nat)
    (hinv : TimerInv st) :
    TimerInv { st with outstanding := st.outstanding.erase q } :=
  ⟨fun p hp => hinv.mapped p (List.mem_of_mem_erase hp),
   fun p hp => hinv.fresh p (List.mem_of_mem_erase hp),
   hinv.nodupHandles.sublist (List.Sublist.map _ (List.erase_sublist _ _))⟩

/-- The armed timers form a duplicate-free list. -/
theorem timerInv_nodup (st : DState) (hinv : TimerInv st) :
    st.outstanding.Nodup :=
  hinv.nodupHandles.of_map

/-- If the timer map has no entry for a key, no timer is armed for it. -/
theorem no_timer_of_map_none (st : DState) (k : String)
    (hinv : TimerInv st) (hfind : mapFind? st.timersMap k = none) :
    ∀ h', (k, h') ∉ st.outstanding := by
  intro h' hmem
  have := hinv.mapped (k, h') hmem
  rw [hfind] at this
  exact Option.noConfusion this

/-- After erasing the timer recorded in the map for a key, no timer
remains armed for that key. -/
theorem no_timer_after_erase (st : DState) (k : String) (h : Nat)
    (hinv : TimerInv st) (hmap : mapFind? st.timersMap k = some h) :
    ∀ h', (k, h') ∉ st.outstanding.erase (k, h) := by
  intro h' hmem
  have hmem0 : (k, h') ∈ st.outstanding := List.mem_of_mem_erase hmem
  have hfk : mapFind? st.timersMap k = some h' := hinv.mapped (k, h') hmem0
  have hh : h' = h := (Option.some_inj.mp (hmap.symm.trans hfk)).symm
  rw [hh] at hmem
  have hnd : st.outstanding.Nodup := timerInv_nodup st hinv
  exact ((List.Nodup.mem_erase_iff hnd).mp hmem).1 rfl

/-- Erasing a key from the timer map preserves the invariant once no
timer is armed for that key. -/
theorem timerInv_timersErase (st : DState) (k : String)
    (hinv : TimerInv st) (hclear : ∀ h', (k, h') ∉ st.outstanding) :
    TimerInv { st with timersMap := mapErase st.timersMap k } := by
  refine ⟨?_, hinv.fresh, hinv.nodupHandles⟩
  intro p hp
  have hpk : p.1 ≠ k := by
    intro hh
    exact hclear p.2 (by rw [← hh]; exact hp)
  show mapFind? (mapErase st.timersMap k) p.1 = some p.2
  rw [mapFind?_mapErase_ne _ _ _ hpk]
  exact hinv.mapped p hp

/-- `flushEvents` preserves the timer invariant when no timer is armed for
the flushed key (which is how the daemon always calls it). -/
theorem timerInv_flushEvents (now ra : Int) (st : DState) (k : String)
    (hinv : TimerInv st) (hnone : ∀ h, (k, h) ∉ st.outstanding) :
    TimerInv (flushEvents now ra st k) := by
  refine ⟨?_, ?_, ?_⟩
  · intro p hp
    rw [flushEvents_outstanding] at hp
    rw [flushEvents_timersMap]
    have hpk : p.1 ≠ k := by
      intro hh
      exact hnone p.2 (by rw [← hh]; exact hp)
    rw [mapFind?_mapErase_ne _ _ _ hpk]
    exact hinv.mapped p hp
  · intro p hp
    rw [flushEvents_outstanding] at hp
    rw [flushEvents_nextHandle]
    exact hinv.fresh p hp
  · rw [flushEvents_outstanding]
    exact hinv.nodupHandles

/-- After `flushEvents`, still no timer armed for the key. -/
theorem flushEvents_no_timer (now ra : Int) (st : DState) (k : String)
    (hnone : ∀ h, (k, h) ∉ st.outstanding) :
    ∀ h, (k, h) ∉ (flushEvents now ra st k).outstanding := by
  intro h
  rw [flushEvents_outstanding]
  exact hnone h

/-- `scheduleFlush` preserves the timer invariant. -/
theorem timerInv_scheduleFlush (cfg : Config) (now ra : Int) (st : DState)
    (gk : String) (hinv : TimerInv st) :
    TimerInv (scheduleFlush cfg now ra st gk) := by
  unfold scheduleFlush
  by_cases hbig :
      ((mapFind? st.pending gk).getD []).length ≥ cfg.maxBatchSize
  · simp only [if_pos hbig]
    cases hfind : mapFind? st.timersMap gk with
    | some h =>
      simp only
      exact timerInv_flushEvents now ra _ gk
        (timerInv_timersErase _ gk (timerInv_erase st (gk, h) hinv)
          (no_timer_after_erase st gk h hinv hfind))
        (no_timer_after_erase st gk h hinv hfind)
    | none =>
      simp only
      exact timerInv_flushEvents now ra _ gk
        (timerInv_timersErase st gk hinv (no_timer_of_map_none st gk hinv hfind))
        (no_timer_of_map_none st gk hinv hfind)
  · simp only [if_neg hbig]
    by_cases hhas : (mapFind? st.timersMap gk).isSome
    · simp only [if_pos hhas]
      exact hinv
    · simp only [if_neg hhas]
      have hfind : mapFind? st.timersMap gk = none := by
        cases hh : mapFind? st.timersMap gk
        · rfl
        · exact absurd (by simp [hh]) hhas
      refine ⟨?_, ?_, ?_⟩
      · intro p hp
        simp only [List.mem_append, List.mem_singleton] at hp
        cases hp with
        | inl hp =>
          have hpk : p.1 ≠ gk := by
            intro hh
            have := hinv.mapped p hp
            rw [hh, hfind] at this
            exact Option.noConfusion this
          show mapFind? (mapInsert st.timersMap gk st.nextHandle) p.1 = some p.2
          rw [mapFind?_mapInsert_ne _ _ _ _ hpk]
          exact hinv.mapped p hp
        | inr hp =>
          rw [hp]
          exact mapFind?_mapInsert_self _ _ _
      · intro p hp
        simp only [List.mem_append, List.mem_singleton] at hp
        cases hp with
        | inl hp => exact Nat.lt_succ_of_lt (hinv.fresh p hp)
        | inr hp => rw [hp]; exact Nat.lt_succ_self _
      · simp only [List.map_append, List.map_cons, List.map_nil]
        rw [List.nodup_append]
        refine ⟨hinv.nodupHandles, List.nodup_singleton _, ?_⟩
        intro a ha hb
        simp only [List.mem_singleton] at hb
        rw [hb] at ha
        obtain ⟨p, hp, hp2⟩ := List.mem_map.mp ha
        have := hinv.fresh p hp
        omega

/-- `addEvent` preserves the timer invariant. -/
theorem timerInv_addEvent (cfg : Config) (now ra : Int) (st : DState)
    (sk : String) (ev : PendingEvent) (hinv : TimerInv st) :
    TimerInv (addEvent cfg now ra st sk ev) := by
  unfold addEvent
  exact timerInv_scheduleFlush cfg now ra _ _
    ⟨hinv.mapped, hinv.fresh, hinv.nodupHandles⟩

/-- Every step of the batching state machine preserves the invariant. -/
theorem timerInv_bstep (cfg : Config) (st st' : DState)
    (hstep : BStep cfg st st') (hinv : TimerInv st) : TimerInv st' := by
  cases hstep with
  | add now ra sk ev => exact timerInv_addEvent cfg now ra st sk ev hinv
  | fire now ra k h hmem =>
    have hmap : mapFind? st.timersMap k = some h := hinv.mapped (k, h) hmem
    exact timerInv_flushEvents now ra _ k
      (timerInv_erase st (k, h) hinv)
      (no_timer_after_erase st k h hinv hmap)

/-- The invariant holds in every state reachable from start-up. -/
theorem timerInv_reachable (cfg : Config) (st : DState)
    (hreach : Relation.ReflTransGen (BStep cfg) initState st) :
    TimerInv st := by
  induction hreach with
  | refl =>
    refine ⟨?_, ?_, ?_⟩ <;> simp [initState]
  | tail _ hstep ih => exact timerInv_bstep cfg _ _ hstep ih

/-- Under the invariant, at most one timer is armed per group key. -/
theorem timerInv_at_most_one (st : DState) (hinv : TimerInv st)
    (k : String) :
    (st.outstanding.filter (fun p => p.1 = k)).length ≤ 1 := by
  cases hl : st.outstanding.filter (fun p => p.1 = k) with
  | nil => simp
  | cons x xs =>
    have hx : x ∈ st.outstanding.filter (fun p => p.1 = k) := by
      rw [hl]; exact List.mem_cons_self _ _
    rw [← hl]
    apply length_le_one_of_nodup_of_all_eq _ x
    · exact (timerInv_nodup st hinv).filter _
    · intro a ha
      have hax := List.mem_filter.mp ha
      have hxx := List.mem_filter.mp hx
      have ha1 : a.1 = k := by simpa using hax.2
      have hx1 : x.1 = k := by simpa using hxx.2
      have hfa : mapFind? st.timersMap k = some a.2 := by
        rw [← ha1]; exact hinv.mapped a hax.1
      have hfx : mapFind? st.timersMap k = some x.2 := by
        rw [← hx1]; exact hinv.mapped x hxx.1
      have h2 : a.2 = x.2 := Option.some_inj.mp (hfa.symm.trans hfx)
      have h1 : a.1 = x.1 := by rw [ha1, hx1]
      exact Prod.ext h1 h2

/-- What `scheduleFlush` does once the batch has reached the maximum batch
size: cancel the armed timer (if any), clear the timer entry, and flush —
leaving no pending batch and no timer for the key. -/
theorem scheduleFlush_maxBatch (cfg : Config) (now ra : Int) (st : DState)
    (gk : String) (hinv : TimerInv st)
    (hbig : cfg.maxBatchSize ≤ ((mapFind? st.pending gk).getD []).length) :
    mapFind? (scheduleFlush cfg now ra st gk).pending gk = none ∧
    mapFind? (scheduleFlush cfg now ra st gk).timersMap gk = none ∧
    ∀ h, (gk, h) ∉ (scheduleFlush cfg now ra st gk).outstanding := by
  unfold scheduleFlush
  have hbig' : ((mapFind? st.pending gk).getD []).length ≥ cfg.maxBatchSize :=
    hbig
  simp only [if_pos hbig']
  cases hfind : mapFind? st.timersMap gk with
  | some h =>
    simp only
    refine ⟨?_, ?_, ?_⟩
    · rw [flushEvents_pending]
      exact mapFind?_mapErase_self _ _
    · rw [flushEvents_timersMap]
      exact mapFind?_mapErase_self _ _
    · exact flushEvents_no_timer now ra _ gk
        (no_timer_after_erase st gk h hinv hfind)
  | none =>
    simp only
    refine ⟨?_, ?_, ?_⟩
    · rw [flushEvents_pending]
      exact mapFind?_mapErase_self _ _
    · rw [flushEvents_timersMap]
      exact mapFind?_mapErase_self _ _
    · exact flushEvents_no_timer now ra _ gk
        (no_timer_of_map_none st gk hinv hfind)

/-- The batch recorded for the group key right after `addEvent` appends
its event. -/
theorem addEvent_pending_self (st : DState) (gk : String)
    (ev : PendingEvent) :
    mapFind?
      (match mapFind? st.pending gk with
        | some evs => mapInsert st.pending gk (evs ++ [ev])
        | none => mapInsert st.pending gk [ev]) gk =
      some (((mapFind? st.pending gk).getD []) ++ [ev]) := by
  cases hfind : mapFind? st.pending gk with
  | some evs => simp [mapFind?_mapInsert_self]
  | none => simp [mapFind?_mapInsert_self]

/-! ## Claim C5 — at most one timer per group, deterministic max-batch
flush -/

/-- C5: in every state reachable by `addEvent` calls and timer firings, at
most one flush timer is outstanding per group key; and whenever an
`addEvent` call makes the pending batch for its group key reach
`MAX_BATCH_SIZE`, the call cancels any armed timer for that key and
flushes immediately: afterwards the key has no pending batch, no timer
entry and no armed timer. -/
theorem timer_invariant_and_max_batch_flush (cfg : Config) (st : DState)
    (hreach : Relation.ReflTransGen (BStep cfg) initState st) :
    (∀ k, (st.outstanding.filter (fun p => p.1 = k)).length ≤ 1) ∧
    (∀ (now ra : Int) (sk : String) (ev : PendingEvent),
      cfg.maxBatchSize ≤
          ((mapFind? st.pending (groupKeyOf sk ev)).getD []).length + 1 →
      mapFind? (addEvent cfg now ra st sk ev).pending (groupKeyOf sk ev) =
          none ∧
      mapFind? (addEvent cfg now ra st sk ev).timersMap (groupKeyOf sk ev) =
          none ∧
      ∀ h, (groupKeyOf sk ev, h) ∉ (addEvent cfg now ra st sk ev).outstanding)
    := by
  have hinv : TimerInv st := timerInv_reachable cfg st hreach
  refine ⟨timerInv_at_most_one st hinv, ?_⟩
  intro now ra sk ev hbig
  unfold addEvent
  have hinv' : TimerInv
      { st with
          pending :=
            match mapFind? st.pending (groupKeyOf sk ev) with
            | some evs =>
              mapInsert st.pending (groupKeyOf sk ev) (evs ++ [ev])
            | none => mapInsert st.pending (groupKeyOf sk ev) [ev]
          lastEventTime :=
            mapInsert st.lastEventTime (groupKeyOf sk ev) now
          emitLog := st.emitLog ++ [ev.id] } :=
    ⟨hinv.mapped, hinv.fresh, hinv.nodupHandles⟩
  refine scheduleFlush_maxBatch cfg now ra _ _ hinv' ?_
  rw [addEvent_pending_self st (groupKeyOf sk ev) ev]
  simp only [Option.getD_some, List.length_append, List.length_singleton]
  exact hbig
/-- C5 witness: the initial state is reachable and has at most one armed
timer for the concrete key `"g"`. -/
theorem timer_invariant_witness :
    (initState.outstanding.filter (fun p => p.1 = "g")).length ≤ 1 :=
  (timer_invariant_and_max_batch_flush defaultConfig initState
    Relation.ReflTransGen.refl).1 "g"

/-! ## Length accounting for `buildMessage` -/

theorem jsJoin_foldl_length (xs : List String) : ∀ a : String,
    (xs.foldl (fun acc l => acc ++ "\n" ++ l) a).length =
      a.length + (xs.map (fun l => l.length + 1)).sum := by
  induction xs with
  | nil => intro a; simp
  | cons y ys ih =>
    intro a
    simp only [List.foldl_cons, List.map_cons, List.sum_cons]
    rw [ih]
    rw [String.length_append, String.length_append]
    have h1 : ("\n" : String).length = 1 := rfl
    rw [h1]
    omega

theorem jsJoin_cons_length (x : String) (xs : List String) :
    (jsJoin "\n" (x :: xs)).length + 1 =
      ((x :: xs).map (fun l => l.length + 1)).sum := by
  unfold jsJoin
  rw [jsJoin_foldl_length]
  simp
  omega

theorem jsJoin_ends_with_last (pre : List String) (m : String) :
    ∃ q : String, jsJoin "\n" (pre ++ [m]) = q ++ m := by
  cases pre with
  | nil =>
    refine ⟨"", ?_⟩
    simp [jsJoin]
  | cons x xs =>
    refine ⟨(xs.foldl (fun acc l => acc ++ "\n" ++ l) x) ++ "\n", ?_⟩
    show (xs ++ [m]).foldl (fun acc l => acc ++ "\n" ++ l) x = _
    rw [List.foldl_append]
    simp [List.foldl_cons, List.foldl_nil, String.append_assoc]

theorem natDigits_length_le (k : Nat) : ∀ n : Nat, n < 10 ^ k → 1 ≤ k →
    (natDigits n).length ≤ k := by
  induction k with
  | zero => intro n _ h1; omega
  | succ k ih =>
    intro n hn _
    rw [natDigits]
    by_cases h : n < 10
    · rw [dif_pos h]
      simp
    · rw [dif_neg h]
      have hdiv : n / 10 < 10 ^ k := by
        rw [Nat.div_lt_iff_lt_mul (by omega)]
        calc n < 10 ^ (k + 1) := hn
          _ = 10 ^ k * 10 := by rw [pow_succ]
      have hk1 : 1 ≤ k := by
        by_contra hk
        have hk0 : k = 0 := by omega
        rw [hk0] at hn
        simp at hn
        omega
      have := ih (n / 10) hdiv hk1
      simp [List.length_append]
      omega

theorem overflowMarker_length_le (n : Int) (h0 : 0 < n)
    (hn : n < 10 ^ 38) : (overflowMarker n).length ≤ 48 := by
  unfold overflowMarker intDecimal natDecimal
  have hneg : ¬ n < 0 := by omega
  rw [if_neg hneg]
  have h1 : (n.toNat : Int) = n := Int.toNat_of_nonneg (le_of_lt h0)
  have h2 : n.toNat < 10 ^ 38 := by
    have : ((n.toNat : Int)) < (((10 ^ 38 : Nat) : Int)) := by
      rw [h1]
      push_cast
      exact hn
    exact_mod_cast this
  have hlen : (natDigits n.toNat).length ≤ 38 :=
    natDigits_length_le 38 n.toNat h2 (by omega)
  have hpre : ("• … +" : String).length = 5 := rfl
  have hsuf : (" more" : String).length = 5 := rfl
  have hmk : (String.mk (natDigits n.toNat)).length = (natDigits n.toNat).length :=
    rfl
  simp only [String.length_append, hpre, hsuf, hmk]
  omega

/-- Invariant of the `buildMessage` event loop: starting under the
`MAX_MESSAGE_LENGTH - 50` budget, the produced lines (newline accounting
included) stay within `MAX_MESSAGE_LENGTH`, and if the loop broke for
length the last line is an overflow marker with a positive count. -/
theorem fmtLoop_spec (cfg : Config) (total : Nat)
    (hM : 50 ≤ cfg.maxMessageLength) (htot : total + 1 < 10 ^ 38) :
    ∀ (evs : List PendingEvent) (lines : List String) (totalLen : Nat),
    totalLen = (lines.map (fun l => l.length + 1)).sum →
    (totalLen : Int) ≤ (cfg.maxMessageLength : Int) - 50 →
    lines.length + evs.length ≤ total + 1 →
    (((fmtLoop cfg total evs lines totalLen).1.map
        (fun l => l.length + 1)).sum ≤ cfg.maxMessageLength) ∧
    ((fmtLoop cfg total evs lines totalLen).2 = true →
      ∃ n : Int, 0 < n ∧ ∃ pre,
        (fmtLoop cfg total evs lines totalLen).1 =
          pre ++ [overflowMarker n]) := by
  intro evs
  induction evs with
  | nil =>
    intro lines totalLen hsum hbud _
    unfold fmtLoop
    constructor
    · rw [← hsum]
      omega
    · intro hfl
      exact absurd hfl (by simp)
  | cons e rest ih =>
    intro lines totalLen hsum hbud hcnt
    unfold fmtLoop
    cases hfmt : formatEvent e with
    | none =>
      exact ih lines totalLen hsum hbud
        (by simp at hcnt ⊢; omega)
    | some f =>
      simp only
      by_cases hover : (totalLen : Int) + f.length + 1 >
          (cfg.maxMessageLength : Int) - 50
      · rw [if_pos hover]
        have hrem : (0 : Int) < (total : Int) - lines.length + 1 := by
          simp only [List.length_cons] at hcnt
          have : lines.length + rest.length + 1 ≤ total + 1 := hcnt
          have hle : lines.length ≤ total := by omega
          have : (lines.length : Int) ≤ (total : Int) := by exact_mod_cast hle
          omega
        rw [if_pos hrem]
        have hremlt : (total : Int) - lines.length + 1 < 10 ^ 38 := by
          have h1 : ((total : Int)) + 1 < ((10 ^ 38 : Nat) : Int) := by
            exact_mod_cast htot
          push_cast at h1 ⊢
          omega
        constructor
        · rw [List.map_append, List.sum_append]
          simp only [List.map_cons, List.map_nil, List.sum_cons,
            List.sum_nil]
          have hmark := overflowMarker_length_le _ hrem hremlt
          rw [← hsum]
          have hbudn : totalLen ≤ cfg.maxMessageLength - 50 := by omega
          omega
        · intro _
          exact ⟨(total : Int) - lines.length + 1, hrem, lines, rfl⟩
      · rw [if_neg hover]
        apply ih
        · rw [List.map_append, List.sum_append, ← hsum]
          simp only [List.map_cons, List.map_nil, List.sum_cons,
            List.sum_nil]
          omega
        · omega
        · simp only [List.length_append, List.length_cons,
            List.length_nil] at hcnt ⊢
          omega

/-! ## Claim C1 — `buildMessage` length bound -/

set_option maxRecDepth 40000 in
/-- C1 counterexample: with session metadata whose model string is long,
the (unchecked) header alone makes the `buildMessage` output exceed the
configured maximum message length. -/
theorem buildMessage_length_counterexample :
    defaultConfig.maxMessageLength <
      (buildMessage defaultConfig
        (mapInsert JMap.empty "s"
          { cwd := "", projectName := "x",
            model := String.mk (List.replicate 1710 'a'),
            chatType := "unknown", key := "" })
        JMap.empty 1000000 "s" []).1.length := by
  decide

/-- C1 (amended): whenever the header line is either suppressed or short
enough to fit the `MAX_MESSAGE_LENGTH - 50` budget (with its newline), the
`buildMessage` output is at most the configured maximum message length,
and if events were cut for length the output ends with the overflow marker
`• … +N more` with `N > 0`.  (The header itself is emitted without a
length check, so the bound needs the header-size hypothesis; `sendMessage`
separately truncates every message to the maximum.) -/
theorem buildMessage_length_bound (cfg : Config)
    (meta : JMap SessionMetadata) (lht : JMap Int) (now : Int)
    (groupKey : String) (events : List PendingEvent)
    (hM : 50 ≤ cfg.maxMessageLength)
    (hcount : events.length + 1 < 10 ^ 38)
    (hheader : bmShowHeader cfg lht now groupKey = true →
      (bmHeader cfg meta groupKey events).length + 51 ≤
        cfg.maxMessageLength) :
    (buildMessage cfg meta lht now groupKey events).1.length ≤
      cfg.maxMessageLength ∧
    ((fmtLoop cfg events.length events
        (if bmShowHeader cfg lht now groupKey then
          [bmHeader cfg meta groupKey events] else [])
        (if bmShowHeader cfg lht now groupKey then
          (bmHeader cfg meta groupKey events).length + 1 else 0)).2 = true →
      ∃ n : Int, 0 < n ∧ ∃ q : String,
        (buildMessage cfg meta lht now groupKey events).1 =
          q ++ overflowMarker n) := by
  have key : ∀ (lines0 : List String) (t0 : Nat),
      t0 = (lines0.map (fun l => l.length + 1)).sum →
      (t0 : Int) ≤ (cfg.maxMessageLength : Int) - 50 →
      lines0.length + events.length ≤ events.length + 1 →
      (jsJoin "\n" (fmtLoop cfg events.length events lines0 t0).1).length ≤
          cfg.maxMessageLength ∧
      ((fmtLoop cfg events.length events lines0 t0).2 = true →
        ∃ n : Int, 0 < n ∧ ∃ q : String,
          jsJoin "\n" (fmtLoop cfg events.length events lines0 t0).1 =
            q ++ overflowMarker n) := by
    intro lines0 t0 h1 h2 h3
    have hspec2 := fmtLoop_spec cfg events.length hM hcount events
      lines0 t0 h1 h2 h3
    constructor
    · cases hres : (fmtLoop cfg events.length events lines0 t0).1 with
      | nil => simp [jsJoin]
      | cons x xs =>
        have hs := hspec2.1
        rw [hres] at hs
        have hjl := jsJoin_cons_length x xs
        omega
    · intro hfl
      obtain ⟨n, hn, pre, hpre⟩ := hspec2.2 hfl
      refine ⟨n, hn, ?_⟩
      rw [hpre]
      exact jsJoin_ends_with_last pre (overflowMarker n)
  by_cases hsh : bmShowHeader cfg lht now groupKey = true
  · have hh := hheader hsh
    have hk := key [bmHeader cfg meta groupKey events]
      ((bmHeader cfg meta groupKey events).length + 1)
      (by simp)
      (by push_cast; omega)
      (by simp; omega)
    constructor
    · show (buildMessage cfg meta lht now groupKey events).1.length ≤ _
      unfold buildMessage
      simp only [hsh, if_pos, ite_true]
      exact hk.1
    · simp only [hsh, ite_true]
      intro hfl
      have := hk.2 hfl
      unfold buildMessage
      simp only [hsh, ite_true]
      exact this
  · have hk := key [] 0 (by simp) (by push_cast; omega) (by simp)
    constructor
    · show (buildMessage cfg meta lht now groupKey events).1.length ≤ _
      unfold buildMessage
      simp only [hsh, ite_false]
      exact hk.1
    · simp only [hsh, ite_false]
      intro hfl
      have := hk.2 hfl
      unfold buildMessage
      simp only [hsh, ite_false]
      exact this

/-- C1 witness: the bound at the default configuration on an empty batch
with no stored metadata (header `🤖 s`). -/
theorem buildMessage_length_bound_witness :
    (50 ≤ defaultConfig.maxMessageLength) ∧
    (buildMessage defaultConfig JMap.empty JMap.empty 1000000 "s" []).1.length
      ≤ defaultConfig.maxMessageLength :=
  ⟨by decide,
   (buildMessage_length_bound defaultConfig JMap.empty JMap.empty 1000000
      "s" [] (by decide) (by decide) (fun _ => by decide)).1⟩

/-! ## `tailFile` evaluation lemmas -/

theorem tailLoop_nil (cfg : Config) (parse : String → Option Row)
    (now ra : Int) (sk : String) (tn : Option String) (off : Nat)
    (st : DState) : tailLoop cfg parse now ra sk tn [] off st = (off, st) :=
  rfl

theorem linesAfter_fileBytes (lines : List String) :
    linesAfter lines (fileBytes lines) = [] := by
  induction lines with
  | nil => rfl
  | cons l ls ih =>
    unfold linesAfter
    have h0 : fileBytes (l :: ls) = lineByteLen l + fileBytes ls := by
      simp [fileBytes]
    have hpos : lineByteLen l ≥ 1 := by
      unfold lineByteLen
      omega
    rw [h0]
    rw [if_neg (by omega), if_pos (by omega)]
    have : lineByteLen l + fileBytes ls - lineByteLen l = fileBytes ls := by
      omega
    rw [this]
    exact ih

/-- `tailFile` on a readable, small-enough, valid session file, written as
its definition's spine. -/
theorem tailFile_eval (cfg : Config) (dbg : Bool)
    (parse : String → Option Row) (now ra : Int) (agent fname : String)
    (lines : List String) (st : DState)
    (hvalid : isValidSessionFile fname = true)
    (hsize : ¬ fileBytes lines > cfg.maxFileSize) :
    tailFile cfg dbg parse now ra agent fname (some lines) st =
      (let okey := agent ++ ":" ++ fname
       let st1 :=
        if (mapFind? st.offsets okey).isNone then
          { st with offsets := mapInsert st.offsets okey (if dbg then 0 else fileBytes lines) }
        else st
       let offset := (mapFind? st1.offsets okey).getD 0
       let r := tailLoop cfg parse now ra (getBaseSessionId fname)
         (getThreadNumber fname) (linesAfter lines offset) offset st1
       { r.2 with offsets := mapInsert r.2.offsets okey r.1 }) := by
  unfold tailFile
  rw [if_pos hvalid]
  show (if fileBytes lines > cfg.maxFileSize then st else _) = _
  rw [if_neg hsize]

/-! ## Claim C3 — first-encounter offset initialisation -/

/-- C3: when `tailFile` meets a file whose offset key is absent, it runs
exactly as if the stored offset had been the file's current size (backlog
skipped: no event is emitted and the offset lands at end-of-file) — unless
the process-all-history mode is on, in which case it runs exactly as if
the stored offset had been `0`. -/
theorem tailFile_first_encounter_offset (cfg : Config)
    (parse : String → Option Row) (now ra : Int) (agent fname : String)
    (lines : List String) (st : DState)
    (hvalid : isValidSessionFile fname = true)
    (hsize : ¬ fileBytes lines > cfg.maxFileSize)
    (hnew : mapFind? st.offsets (agent ++ ":" ++ fname) = none) :
    (tailFile cfg false parse now ra agent fname (some lines) st =
      tailFile cfg false parse now ra agent fname (some lines)
        { st with offsets := mapInsert st.offsets (agent ++ ":" ++ fname) (fileBytes lines) }) ∧
    (tailFile cfg true parse now ra agent fname (some lines) st =
      tailFile cfg true parse now ra agent fname (some lines)
        { st with offsets := mapInsert st.offsets (agent ++ ":" ++ fname) 0 }) ∧
    (tailFile cfg false parse now ra agent fname (some lines) st).emitLog =
      st.emitLog ∧
    mapFind? (tailFile cfg false parse now ra agent fname
        (some lines) st).offsets (agent ++ ":" ++ fname) =
      some (fileBytes lines) := by
  have hnewT : (mapFind? st.offsets (agent ++ ":" ++ fname)).isNone = true := by
    rw [hnew]
    rfl
  have hinsF : ∀ v : Nat,
      (mapFind? (mapInsert st.offsets (agent ++ ":" ++ fname) v)
        (agent ++ ":" ++ fname)).isNone = false := by
    intro v
    rw [mapFind?_mapInsert_self]
    rfl
  have hfalse : tailFile cfg false parse now ra agent fname (some lines) st =
      tailFile cfg false parse now ra agent fname (some lines)
        { st with offsets := mapInsert st.offsets (agent ++ ":" ++ fname) (fileBytes lines) } := by
    rw [tailFile_eval cfg false parse now ra agent fname lines st hvalid hsize,
      tailFile_eval cfg false parse now ra agent fname lines _ hvalid hsize]
    simp only [hnewT, hinsF, if_true, if_false, Bool.false_eq_true,
      ite_true, ite_false]
  have htrue : tailFile cfg true parse now ra agent fname (some lines) st =
      tailFile cfg true parse now ra agent fname (some lines)
        { st with offsets := mapInsert st.offsets (agent ++ ":" ++ fname) 0 } := by
    rw [tailFile_eval cfg true parse now ra agent fname lines st hvalid hsize,
      tailFile_eval cfg true parse now ra agent fname lines _ hvalid hsize]
    simp only [hnewT, hinsF, if_true, if_false, Bool.false_eq_true,
      ite_true, ite_false]
  refine ⟨hfalse, htrue, ?_, ?_⟩
  · rw [hfalse,
      tailFile_eval cfg false parse now ra agent fname lines _ hvalid hsize]
    simp only [hinsF, Bool.false_eq_true, if_false, ite_false]
    rw [mapFind?_mapInsert_self]
    show ((tailLoop cfg parse now ra _ _
      (linesAfter lines ((some (fileBytes lines)).getD 0))
      ((some (fileBytes lines)).getD 0) _).2).emitLog = st.emitLog
    have hg : (some (fileBytes lines)).getD 0 = fileBytes lines := rfl
    rw [hg, linesAfter_fileBytes, tailLoop_nil]
  · rw [hfalse,
      tailFile_eval cfg false parse now ra agent fname lines _ hvalid hsize]
    simp only [hinsF, Bool.false_eq_true, if_false, ite_false]
    rw [mapFind?_mapInsert_self st.offsets (agent ++ ":" ++ fname) (fileBytes lines)]
    have hg : (some (fileBytes lines)).getD 0 = fileBytes lines := rfl
    rw [hg, linesAfter_fileBytes, tailLoop_nil]
    exact mapFind?_mapInsert_self _ _ _

/-- C3 witness: a fresh one-line file is skipped to its end. -/
theorem tailFile_first_encounter_witness :
    mapFind?
      (tailFile defaultConfig false (fun _ => none) 0 0 "main"
        "aaaaaaaa-aaaa-aaaa-aaaa-aaaaaaaaaaaa.jsonl" (some ["x"])
        initState).offsets
      ("main" ++ ":" ++ "aaaaaaaa-aaaa-aaaa-aaaa-aaaaaaaaaaaa.jsonl") =
      some (fileBytes ["x"]) :=
  (tailFile_first_encounter_offset defaultConfig (fun _ => none) 0 0 "main"
    "aaaaaaaa-aaaa-aaaa-aaaa-aaaaaaaaaaaa.jsonl" ["x"] initState
    (by decide) (by decide) (by rfl)).2.2.2

/-! ## Claim C8 — diff-stat counting and the call/result merge -/

theorem diffLine_counts (ds : DiffStats) (line : String) :
    (diffLine ds line).added =
      ds.added + (if jsStartsWith line "+" && !(jsStartsWith line "+++")
        then 1 else 0) ∧
    (diffLine ds line).removed =
      ds.removed + (if jsStartsWith line "-" && !(jsStartsWith line "---")
        then 1 else 0) := by
  unfold diffLine
  by_cases hp : (jsStartsWith line "+" && !(jsStartsWith line "+++")) = true
  · by_cases hm : (jsStartsWith line "-" && !(jsStartsWith line "---")) = true
    · simp [hp, hm]
    · simp [hp, hm]
  · by_cases hm : (jsStartsWith line "-" && !(jsStartsWith line "---")) = true
    · simp [hp, hm]
    · simp [hp, hm]

theorem diffFold_counts (lines : List String) : ∀ ds0 : DiffStats,
    (lines.foldl diffLine ds0).added =
      ds0.added +
        lines.countP (fun l => jsStartsWith l "+" && !(jsStartsWith l "+++")) ∧
    (lines.foldl diffLine ds0).removed =
      ds0.removed +
        lines.countP (fun l => jsStartsWith l "-" && !(jsStartsWith l "---"))
    := by
  induction lines with
  | nil => intro ds0; simp
  | cons l ls ih =>
    intro ds0
    simp only [List.foldl_cons, List.countP_cons]
    have h1 := (ih (diffLine ds0 l)).1
    have h2 := (ih (diffLine ds0 l)).2
    have h3 := diffLine_counts ds0 l
    constructor
    · rw [h1, h3.1]
      by_cases hp : (jsStartsWith l "+" && !(jsStartsWith l "+++")) = true <;>
        simp [hp] <;> omega
    · rw [h2, h3.2]
      by_cases hm : (jsStartsWith l "-" && !(jsStartsWith l "---")) = true <;>
        simp [hm] <;> omega

/-- C8: `parseDiffStats` counts a line as added iff it starts with `+` but
not `+++`, and as removed iff it starts with `-` but not `---` (returning
`undefined` exactly when both counts are zero); and processing a
tool-call record (`id=abc`, `name=edit`) followed by the matching
tool-result record with diff body `"+line1\n-line2\n+line3"` leaves one
`toolCall` event in the batch whose merged diff stats are
`added = 2, removed = 1` (chars added 10, removed 5, duration `1000`). -/
theorem parseDiffStats_counts_and_merge :
    (∀ diff : String, ∀ ds : DiffStats, parseDiffStats (some diff) = some ds →
      ds.added = (jsSplitOn diff "\n").countP
          (fun l => jsStartsWith l "+" && !(jsStartsWith l "+++")) ∧
      ds.removed = (jsSplitOn diff "\n").countP
          (fun l => jsStartsWith l "-" && !(jsStartsWith l "---"))) ∧
    (∀ diff : String, parseDiffStats (some diff) = none →
      (jsSplitOn diff "\n").countP
          (fun l => jsStartsWith l "+" && !(jsStartsWith l "+++")) = 0 ∧
      (jsSplitOn diff "\n").countP
          (fun l => jsStartsWith l "-" && !(jsStartsWith l "---")) = 0) ∧
    (((mapFind?
        (processRow defaultConfig 0 0 "sess" none
          (processRow defaultConfig 0 0 "sess" none initState c8Row1)
          c8Row2).pending "sess").getD []).map
        (fun e => (e.type, e.id, getField e.data "diffStats",
          getField e.data "durationMs")) =
      [("toolCall", "abc",
        some (jobj [("added", jnum 2), ("removed", jnum 1),
                    ("addedChars", jnum 10), ("removedChars", jnum 5)]),
        some (jnum 1000))]) := by
  have hfold : ∀ diff : String,
      ((jsSplitOn diff "\n").foldl diffLine ⟨0, 0, 0, 0⟩).added =
        (jsSplitOn diff "\n").countP
          (fun l => jsStartsWith l "+" && !(jsStartsWith l "+++")) ∧
      ((jsSplitOn diff "\n").foldl diffLine ⟨0, 0, 0, 0⟩).removed =
        (jsSplitOn diff "\n").countP
          (fun l => jsStartsWith l "-" && !(jsStartsWith l "---")) := by
    intro diff
    have h := diffFold_counts (jsSplitOn diff "\n") ⟨0, 0, 0, 0⟩
    exact ⟨by simpa using h.1, by simpa using h.2⟩
  refine ⟨?_, ?_, ?_⟩
  · intro diff ds hds
    have hds' : (if diff = "" then (none : Option DiffStats)
        else
          if ((jsSplitOn diff "\n").foldl diffLine ⟨0, 0, 0, 0⟩).added > 0 ||
              ((jsSplitOn diff "\n").foldl diffLine ⟨0, 0, 0, 0⟩).removed > 0
          then some ((jsSplitOn diff "\n").foldl diffLine ⟨0, 0, 0, 0⟩)
          else none) = some ds := hds
    by_cases hd : diff = ""
    · rw [if_pos hd] at hds'
      exact absurd hds' (by simp)
    · rw [if_neg hd] at hds'
      split at hds'
      · have hinj := Option.some_inj.mp hds'
        rw [← hinj]
        exact ⟨(hfold diff).1, (hfold diff).2⟩
      · exact absurd hds' (by simp)
  · intro diff hds
    have hds' : (if diff = "" then (none : Option DiffStats)
        else
          if ((jsSplitOn diff "\n").foldl diffLine ⟨0, 0, 0, 0⟩).added > 0 ||
              ((jsSplitOn diff "\n").foldl diffLine ⟨0, 0, 0, 0⟩).removed > 0
          then some ((jsSplitOn diff "\n").foldl diffLine ⟨0, 0, 0, 0⟩)
          else none) = none := hds
    by_cases hd : diff = ""
    · subst hd
      constructor <;> decide
    · rw [if_neg hd] at hds'
      split at hds'
      · exact absurd hds' (by simp)
      · rename_i hcond
        simp only [Bool.or_eq_true, decide_eq_true_eq, not_or] at hcond
        have h1 := (hfold diff).1
        have h2 := (hfold diff).2
        push_neg at hcond
        constructor
        · omega
        · omega
  · rfl

/-- C8 witness: the counting characterisation at the concrete diff
`"+a\n-b"`. -/
theorem parseDiffStats_counts_witness :
    parseDiffStats (some "+a\n-b") = some ⟨1, 1, 1, 1⟩ ∧
    (⟨1, 1, 1, 1⟩ : DiffStats).added =
      (jsSplitOn "+a\n-b" "\n").countP
        (fun l => jsStartsWith l "+" && !(jsStartsWith l "+++")) :=
  ⟨by rfl,
   ((parseDiffStats_counts_and_merge).1 "+a\n-b" ⟨1, 1, 1, 1⟩ (by rfl)).1⟩

/-! ## Claim C9 — unmatched tool results are silent no-ops -/

theorem metaOnly_refl (st : DState) : MetaOnly st st :=
  ⟨rfl, rfl, rfl, rfl, rfl, rfl, rfl, rfl, rfl, rfl⟩

theorem metaOnly_setMeta (st : DState) (m : JMap SessionMetadata) :
    MetaOnly st { st with meta := m } :=
  ⟨rfl, rfl, rfl, rfl, rfl, rfl, rfl, rfl, rfl, rfl⟩

theorem metaOnly_trans (a b c : DState) (h1 : MetaOnly a b)
    (h2 : MetaOnly b c) : MetaOnly a c := by
  obtain ⟨x1, x2, x3, x4, x5, x6, x7, x8, x9, x10⟩ := h1
  obtain ⟨y1, y2, y3, y4, y5, y6, y7, y8, y9, y10⟩ := h2
  exact ⟨y1.trans x1, y2.trans x2, y3.trans x3, y4.trans x4, y5.trans x5,
    y6.trans x6, y7.trans x7, y8.trans x8, y9.trans x9, y10.trans x10⟩

theorem branchSession_metaOnly (sk : String) (st : DState) (row : Row) :
    MetaOnly st (branchSession sk st row) := by
  unfold branchSession
  split
  · split
    · exact metaOnly_setMeta st _
    · exact metaOnly_setMeta st _
  · exact metaOnly_refl st

theorem branchSnapshot_metaOnly (sk : String) (st : DState) (row : Row) :
    MetaOnly st (branchSnapshot sk st row) := by
  unfold branchSnapshot
  split
  · split
    · split
      · exact metaOnly_setMeta st _
      · exact metaOnly_refl st
    · exact metaOnly_refl st
  · exact metaOnly_refl st

theorem branchUsage_metaOnly (sk : String) (st : DState) (row : Row) :
    MetaOnly st (branchUsage sk st row) := by
  unfold branchUsage
  split
  · split
    · split
      · exact metaOnly_setMeta st _
      · exact metaOnly_refl st
    · exact metaOnly_refl st
  · exact metaOnly_refl st

theorem branchThinkingLevel_noop (cfg : Config) (now ra : Int)
    (sk : String) (tn : Option String) (st : DState) (row : Row)
    (hnot : row.type ≠ some "thinking_level_change") :
    branchThinkingLevel cfg now ra sk tn st row = st := by
  unfold branchThinkingLevel
  rw [if_neg hnot]

theorem branchModelChange_noop (cfg : Config) (now ra : Int)
    (sk : String) (tn : Option String) (st : DState) (row : Row)
    (hnot : row.type ≠ some "model_change") :
    branchModelChange cfg now ra sk tn st row = st := by
  unfold branchModelChange
  rw [if_neg (fun h => hnot h.1)]

theorem branchError_noop (cfg : Config) (now ra : Int) (sk : String)
    (tn : Option String) (st : DState) (row : Row)
    (hnot : row.type ≠ some "error") :
    branchError cfg now ra sk tn st row = st := by
  unfold branchError
  rw [if_neg (fun h => hnot h.1)]

theorem branchUser_noop (cfg : Config) (now ra : Int) (sk : String)
    (tn : Option String) (st : DState) (row : Row) (msg : RowMessage)
    (hrole : msg.role = some "toolResult") :
    branchUser cfg now ra sk tn st row msg = st := by
  unfold branchUser
  rw [if_neg]
  intro h
  rw [hrole] at h
  exact absurd (Option.some_inj.mp h.1) (by decide)

theorem branchAssistant_noop (cfg : Config) (now ra : Int) (sk : String)
    (tn : Option String) (st : DState) (row : Row) (msg : RowMessage)
    (hrole : msg.role = some "toolResult") :
    branchAssistant cfg now ra sk tn st row msg = st := by
  unfold branchAssistant
  rw [if_neg]
  intro h
  rw [hrole] at h
  exact absurd (Option.some_inj.mp h) (by decide)

theorem branchToolResult_noop (sk : String) (tn : Option String)
    (st : DState) (row : Row) (msg : RowMessage)
    (hnomatch : ∀ evs, mapFind? st.pending (threadGroupKey sk tn) = some evs →
      evs.find? (matchesToolCall (msg.toolCallId.getD "")) = none) :
    branchToolResult sk tn st row msg = st := by
  unfold branchToolResult
  split
  · show (match mapFind? st.toolTs (msg.toolCallId.getD "") with
      | none => st
      | some _callInfo =>
        match mapFind? st.pending (threadGroupKey sk tn) with
        | none => st
        | some events =>
          match events.find? (matchesToolCall (msg.toolCallId.getD "")) with
          | none => st
          | some _x => { st with pending := mapInsert st.pending (threadGroupKey sk tn) (updateFirst (matchesToolCall (msg.toolCallId.getD "")) (mergeToolResult row msg) events) }) = st
    cases htts : mapFind? st.toolTs (msg.toolCallId.getD "") with
    | none => rfl
    | some info =>
      show (match mapFind? st.pending (threadGroupKey sk tn) with
        | none => st
        | some events =>
          match events.find? (matchesToolCall (msg.toolCallId.getD "")) with
          | none => st
          | some _x => { st with pending := mapInsert st.pending (threadGroupKey sk tn) (updateFirst (matchesToolCall (msg.toolCallId.getD "")) (mergeToolResult row msg) events) }) = st
      cases hpend : mapFind? st.pending (threadGroupKey sk tn) with
      | none => rfl
      | some evs =>
        show (match evs.find? (matchesToolCall (msg.toolCallId.getD "")) with
          | none => st
          | some _x => { st with pending := mapInsert st.pending (threadGroupKey sk tn) (updateFirst (matchesToolCall (msg.toolCallId.getD "")) (mergeToolResult row msg) evs) }) = st
        rw [hnomatch evs hpend]
  · rfl

theorem processRow_eq (cfg : Config) (now ra : Int) (sk : String)
    (tn : Option String) (st : DState) (row : Row) (msg : RowMessage)
    (hmsg : row.message = some msg) :
    processRow cfg now ra sk tn st row =
      branchToolResult sk tn
        (branchAssistant cfg now ra sk tn
          (branchUser cfg now ra sk tn
            (branchUsage sk
              (branchError cfg now ra sk tn
                (branchSnapshot sk
                  (branchModelChange cfg now ra sk tn
                    (branchThinkingLevel cfg now ra sk tn
                      (branchSession sk st row) row) row) row) row) row)
            row msg) row msg) row msg := by
  unfold processRow
  rw [hmsg]

/-- C9: a tool-result record whose `toolCallId` has no matching pending
tool-call event in that group's batch (for example, because the batch has
already been flushed) is processed as a silent no-op: no event is created,
no already-emitted event is modified, and the batching/dedup/delivery
state is untouched (only the session-metadata map may absorb a token-usage
update). -/
theorem toolResult_unmatched_noop (cfg : Config) (now ra : Int)
    (sk : String) (tn : Option String) (st : DState) (row : Row)
    (msg : RowMessage)
    (hmsg : row.message = some msg)
    (hrole : msg.role = some "toolResult")
    (hnotl : row.type ≠ some "thinking_level_change")
    (hnotm : row.type ≠ some "model_change")
    (hnote : row.type ≠ some "error")
    (hnomatch : ∀ evs, mapFind? st.pending (threadGroupKey sk tn) = some evs →
      evs.find? (matchesToolCall (msg.toolCallId.getD "")) = none) :
    (processRow cfg now ra sk tn st row).pending = st.pending ∧
    (processRow cfg now ra sk tn st row).emitLog = st.emitLog ∧
    (processRow cfg now ra sk tn st row).seen = st.seen ∧
    (processRow cfg now ra sk tn st row).sent = st.sent ∧
    (processRow cfg now ra sk tn st row).timersMap = st.timersMap ∧
    (processRow cfg now ra sk tn st row).outstanding = st.outstanding ∧
    (processRow cfg now ra sk tn st row).toolTs = st.toolTs := by
  rw [processRow_eq cfg now ra sk tn st row msg hmsg]
  have m1 := branchSession_metaOnly sk st row
  set st1 := branchSession sk st row with hst1
  rw [branchThinkingLevel_noop cfg now ra sk tn st1 row hnotl]
  rw [branchModelChange_noop cfg now ra sk tn st1 row hnotm]
  have m2 := branchSnapshot_metaOnly sk st1 row
  set st2 := branchSnapshot sk st1 row with hst2
  rw [branchError_noop cfg now ra sk tn st2 row hnote]
  have m3 := branchUsage_metaOnly sk st2 row
  set st3 := branchUsage sk st2 row with hst3
  rw [branchUser_noop cfg now ra sk tn st3 row msg hrole]
  rw [branchAssistant_noop cfg now ra sk tn st3 row msg hrole]
  have mall : MetaOnly st st3 :=
    metaOnly_trans st st2 st3 (metaOnly_trans st st1 st2 m1 m2) m3
  have hnomatch3 : ∀ evs,
      mapFind? st3.pending (threadGroupKey sk tn) = some evs →
      evs.find? (matchesToolCall (msg.toolCallId.getD "")) = none := by
    intro evs hev
    apply hnomatch
    rw [← mall.2.2.1]
    exact hev
  rw [branchToolResult_noop sk tn st3 row msg hnomatch3]
  obtain ⟨x1, x2, x3, x4, x5, x6, x7, x8, x9, x10⟩ := mall
  exact ⟨x3, x10, x2, x9, x4, x5, x8⟩

/-- C9 witness: a concrete unmatched tool result at the initial state. -/
theorem toolResult_unmatched_witness :
    (processRow defaultConfig 0 0 "sess" none initState c8Row2).pending =
      initState.pending ∧
    (processRow defaultConfig 0 0 "sess" none initState c8Row2).emitLog =
      initState.emitLog :=
  ⟨(toolResult_unmatched_noop defaultConfig 0 0 "sess" none initState
      c8Row2 c8Msg2 rfl rfl (by decide) (by decide) (by decide)
      (fun evs hev => absurd hev (by simp [initState, mapFind?, JMap.empty]))).1,
   (toolResult_unmatched_noop defaultConfig 0 0 "sess" none initState
      c8Row2 c8Msg2 rfl rfl (by decide) (by decide) (by decide)
      (fun evs hev => absurd hev (by simp [initState, mapFind?, JMap.empty]))).2.1⟩

/-! ## Claim C2 — growth of the dedup state across processing steps -/

theorem grow_refl (cap : Nat) (st : DState) : Grow cap st st := by
  intro hcap
  exact ⟨le_refl _, hcap, fun _ => fun a ha => ha, [],
    by rw [List.append_nil], fun _ => ⟨List.nodup_nil, by simp⟩⟩

theorem grow_of_untouched (cap : Nat) (st st' : DState)
    (hs : st'.seen = st.seen) (hl : st'.emitLog = st.emitLog) :
    Grow cap st st' := by
  intro hcap
  rw [hs, hl]
  exact ⟨le_refl _, hcap, fun _ => fun a ha => ha, [],
    by rw [List.append_nil], fun _ => ⟨List.nodup_nil, by simp⟩⟩

theorem grow_congr_right (cap : Nat) (st b a : DState) (h : Grow cap st a)
    (hs : b.seen = a.seen) (hl : b.emitLog = a.emitLog) : Grow cap st b := by
  intro hcap
  rw [hs, hl]
  exact h hcap

theorem grow_trans (cap : Nat) (a b c : DState) (g1 : Grow cap a b)
    (g2 : Grow cap b c) : Grow cap a c := by
  intro hcap
  obtain ⟨m1, c1, p1, new1, e1, h1⟩ := g1 hcap
  obtain ⟨m2, c2, p2, new2, e2, h2⟩ := g2 c1
  refine ⟨le_trans m1 m2, c2, ?_, new1 ++ new2,
    by rw [e2, e1, List.append_assoc], ?_⟩
  · intro hlt
    exact fun x hx => p2 hlt (p1 (lt_of_le_of_lt m2 hlt) hx)
  · intro hlt
    have hlt1 : b.seen.length < cap := lt_of_le_of_lt m2 hlt
    obtain ⟨n1, f1⟩ := h1 hlt1
    obtain ⟨n2, f2⟩ := h2 hlt
    constructor
    · rw [List.nodup_append]
      refine ⟨n1, n2, ?_⟩
      intro x hx1 hx2
      exact (f2 x hx2).2 (f1 x hx1).1
    · intro id hid
      rcases List.mem_append.mp hid with h | h
      · exact ⟨p2 hlt (f1 id h).1, (f1 id h).2⟩
      · exact ⟨(f2 id h).1, fun hmem => (f2 id h).2 (p1 hlt1 hmem)⟩

theorem scheduleFlush_seen (cfg : Config) (now ra : Int) (st : DState)
    (gk : String) : (scheduleFlush cfg now ra st gk).seen = st.seen := by
  simp only [scheduleFlush]
  split
  · rw [flushEvents_seen]
    cases mapFind? st.timersMap gk <;> rfl
  · split
    · rfl
    · rfl

theorem scheduleFlush_emitLog (cfg : Config) (now ra : Int) (st : DState)
    (gk : String) : (scheduleFlush cfg now ra st gk).emitLog = st.emitLog := by
  simp only [scheduleFlush]
  split
  · rw [flushEvents_emitLog]
    cases mapFind? st.timersMap gk <;> rfl
  · split
    · rfl
    · rfl

theorem addEvent_seen (cfg : Config) (now ra : Int) (st : DState)
    (sk : String) (ev : PendingEvent) :
    (addEvent cfg now ra st sk ev).seen = st.seen := by
  simp only [addEvent]
  rw [scheduleFlush_seen]

theorem addEvent_emitLog (cfg : Config) (now ra : Int) (st : DState)
    (sk : String) (ev : PendingEvent) :
    (addEvent cfg now ra st sk ev).emitLog = st.emitLog ++ [ev.id] := by
  simp only [addEvent]
  rw [scheduleFlush_emitLog]

theorem grow_gateEmit (cap : Nat) (st : DState) (id : String)
    (act : DState → DState)
    (hseen : ∀ s, (act s).seen = s.seen)
    (hlog : ∀ s, (act s).emitLog = s.emitLog ++ [id]) :
    Grow cap st (gateEmit cap st id act) := by
  by_cases hmem : id ∈ st.seen
  · have hg : gateEmit cap st id act = st := by
      unfold gateEmit hasSeenId
      rw [if_pos hmem]
      rfl
    rw [hg]
    exact grow_refl cap st
  · by_cases hlen : (st.seen ++ [id]).length > cap
    · have hg : gateEmit cap st id act =
          act { st with seen := (st.seen ++ [id]).drop ((st.seen ++ [id]).length - cap) } := by
        unfold gateEmit hasSeenId
        rw [if_neg hmem, if_pos hlen]
        rfl
      rw [hg]
      intro hcap
      have hlen' : st.seen.length = cap := by
        simp only [List.length_append, List.length_cons, List.length_nil] at hlen
        omega
      have hdlen : ((st.seen ++ [id]).drop ((st.seen ++ [id]).length - cap)).length = cap := by
        rw [List.length_drop]
        simp only [List.length_append, List.length_cons, List.length_nil]
        omega
      rw [hseen, hlog]
      refine ⟨?_, ?_, ?_, [id], rfl, ?_⟩
      · show st.seen.length ≤ ((st.seen ++ [id]).drop _).length
        rw [hdlen]
        omega
      · show ((st.seen ++ [id]).drop _).length ≤ cap
        rw [hdlen]
      · intro hlt
        rw [hdlen] at hlt
        omega
      · intro hlt
        rw [hdlen] at hlt
        omega
    · have hg : gateEmit cap st id act = act { st with seen := st.seen ++ [id] } := by
        unfold gateEmit hasSeenId
        rw [if_neg hmem, if_neg hlen]
        rfl
      rw [hg]
      intro hcap
      have hlen' : st.seen.length + 1 ≤ cap := by
        simp only [List.length_append, List.length_cons, List.length_nil] at hlen
        omega
      rw [hseen, hlog]
      refine ⟨?_, ?_, ?_, [id], rfl, ?_⟩
      · show st.seen.length ≤ (st.seen ++ [id]).length
        simp
      · show (st.seen ++ [id]).length ≤ cap
        simp only [List.length_append, List.length_cons, List.length_nil]
        omega
      · intro _
        exact fun a ha => List.mem_append_left _ ha
      · intro _
        refine ⟨List.nodup_singleton id, ?_⟩
        intro x hx
        rw [List.mem_singleton.mp hx]
        exact ⟨List.mem_append_right _ (List.mem_singleton.mpr rfl), hmem⟩

theorem grow_state_gate (cap : Nat) (st st2 : DState) (id : String)
    (act : DState → DState)
    (h2s : st2.seen = st.seen) (h2l : st2.emitLog = st.emitLog)
    (hseen : ∀ s, (act s).seen = s.seen)
    (hlog : ∀ s, (act s).emitLog = s.emitLog ++ [id]) :
    Grow cap st (gateEmit cap st2 id act) :=
  grow_trans cap st st2 _ (grow_of_untouched cap st st2 h2s h2l)
    (grow_gateEmit cap st2 id act hseen hlog)

theorem grow_of_metaOnly (cap : Nat) (st st' : DState)
    (h : MetaOnly st st') : Grow cap st st' := by
  obtain ⟨x1, x2, x3, x4, x5, x6, x7, x8, x9, x10⟩ := h
  exact grow_of_untouched cap st st' x2 x10

theorem grow_branchSession (cap : Nat) (sk : String) (st : DState)
    (row : Row) : Grow cap st (branchSession sk st row) :=
  grow_of_metaOnly cap st _ (branchSession_metaOnly sk st row)

theorem grow_branchSnapshot (cap : Nat) (sk : String) (st : DState)
    (row : Row) : Grow cap st (branchSnapshot sk st row) :=
  grow_of_metaOnly cap st _ (branchSnapshot_metaOnly sk st row)

theorem grow_branchUsage (cap : Nat) (sk : String) (st : DState)
    (row : Row) : Grow cap st (branchUsage sk st row) :=
  grow_of_metaOnly cap st _ (branchUsage_metaOnly sk st row)

theorem grow_branchThinkingLevel (cfg : Config) (now ra : Int)
    (sk : String) (tn : Option String) (st : DState) (row : Row) :
    Grow cfg.maxSeenIds st (branchThinkingLevel cfg now ra sk tn st row) := by
  simp only [branchThinkingLevel]
  split
  · apply grow_state_gate
    · cases mapFind? st.meta sk <;> rfl
    · cases mapFind? st.meta sk <;> rfl
    · intro s
      exact addEvent_seen _ _ _ _ _ _
    · intro s
      exact addEvent_emitLog _ _ _ _ _ _
  · exact grow_refl _ _

theorem grow_branchModelChange (cfg : Config) (now ra : Int)
    (sk : String) (tn : Option String) (st : DState) (row : Row) :
    Grow cfg.maxSeenIds st (branchModelChange cfg now ra sk tn st row) := by
  simp only [branchModelChange]
  split
  · apply grow_state_gate
    · cases mapFind? st.meta sk <;> rfl
    · cases mapFind? st.meta sk <;> rfl
    · intro s
      exact addEvent_seen _ _ _ _ _ _
    · intro s
      exact addEvent_emitLog _ _ _ _ _ _
  · exact grow_refl _ _

theorem grow_branchError (cfg : Config) (now ra : Int) (sk : String)
    (tn : Option String) (st : DState) (row : Row) :
    Grow cfg.maxSeenIds st (branchError cfg now ra sk tn st row) := by
  simp only [branchError]
  split
  · apply grow_gateEmit
    · intro s
      exact addEvent_seen _ _ _ _ _ _
    · intro s
      exact addEvent_emitLog _ _ _ _ _ _
  · exact grow_refl _ _

theorem grow_branchUser (cfg : Config) (now ra : Int) (sk : String)
    (tn : Option String) (st : DState) (row : Row) (msg : RowMessage) :
    Grow cfg.maxSeenIds st (branchUser cfg now ra sk tn st row msg) := by
  simp only [branchUser]
  split
  · apply grow_gateEmit
    · intro s
      exact addEvent_seen _ _ _ _ _ _
    · intro s
      exact addEvent_emitLog _ _ _ _ _ _
  · exact grow_refl _ _

theorem grow_foldl {α : Type} (cap : Nat) (f : DState → α → DState)
    (hf : ∀ s a, Grow cap s (f s a)) :
    ∀ (l : List α) (s : DState), Grow cap s (l.foldl f s) := by
  intro l
  induction l with
  | nil => intro s; exact grow_refl _ _
  | cons a l ih =>
    intro s
    rw [List.foldl_cons]
    exact grow_trans _ _ _ _ (hf s a) (ih (f s a))

theorem grow_processContentItem (cfg : Config) (now ra : Int)
    (sk : String) (tn : Option String) (row : Row) (st : DState)
    (item : ContentItem) :
    Grow cfg.maxSeenIds st (processContentItem cfg now ra sk tn row st item) := by
  simp only [processContentItem]
  by_cases hth : item.type = some "thinking" ∧ truthyStr item.thinking = true
  · rw [if_pos hth]
    split
    · refine grow_trans _ _ _ _ ?_ (grow_gateEmit _ _ _ _ ?_ ?_)
      · apply grow_gateEmit
        · intro s
          exact addEvent_seen _ _ _ _ _ _
        · intro s
          exact addEvent_emitLog _ _ _ _ _ _
      · intro s
        exact addEvent_seen _ _ _ _ _ _
      · intro s
        exact addEvent_emitLog _ _ _ _ _ _
    · apply grow_gateEmit
      · intro s
        exact addEvent_seen _ _ _ _ _ _
      · intro s
        exact addEvent_emitLog _ _ _ _ _ _
  · rw [if_neg hth]
    split
    · apply grow_gateEmit
      · intro s
        exact addEvent_seen _ _ _ _ _ _
      · intro s
        exact addEvent_emitLog _ _ _ _ _ _
    · exact grow_refl _ _

theorem grow_branchAssistant (cfg : Config) (now ra : Int) (sk : String)
    (tn : Option String) (st : DState) (row : Row) (msg : RowMessage) :
    Grow cfg.maxSeenIds st (branchAssistant cfg now ra sk tn st row msg) := by
  simp only [branchAssistant]
  split
  · cases hc : msg.content with
    | some items =>
      split
      · refine grow_trans _ _ _ _ ?_ (grow_gateEmit _ _ _ _ ?_ ?_)
        · exact grow_foldl _ _ (fun s a => grow_processContentItem cfg now ra sk tn row s a) items st
        · intro s
          exact addEvent_seen _ _ _ _ _ _
        · intro s
          exact addEvent_emitLog _ _ _ _ _ _
      · exact grow_foldl _ _ (fun s a => grow_processContentItem cfg now ra sk tn row s a) items st
    | none =>
      split
      · refine grow_trans _ _ _ _ (grow_refl _ _) (grow_gateEmit _ _ _ _ ?_ ?_)
        · intro s
          exact addEvent_seen _ _ _ _ _ _
        · intro s
          exact addEvent_emitLog _ _ _ _ _ _
      · exact grow_refl _ _
  · exact grow_refl _ _

theorem branchToolResult_seen (sk : String) (tn : Option String)
    (st : DState) (row : Row) (msg : RowMessage) :
    (branchToolResult sk tn st row msg).seen = st.seen := by
  simp only [branchToolResult]
  split
  · split
    · rfl
    · split
      · rfl
      · split
        · rfl
        · rfl
  · rfl

theorem branchToolResult_emitLog (sk : String) (tn : Option String)
    (st : DState) (row : Row) (msg : RowMessage) :
    (branchToolResult sk tn st row msg).emitLog = st.emitLog := by
  simp only [branchToolResult]
  split
  · split
    · rfl
    · split
      · rfl
      · split
        · rfl
        · rfl
  · rfl

theorem grow_branchToolResult (cap : Nat) (sk : String)
    (tn : Option String) (st : DState) (row : Row) (msg : RowMessage) :
    Grow cap st (branchToolResult sk tn st row msg) :=
  grow_of_untouched cap st _ (branchToolResult_seen sk tn st row msg)
    (branchToolResult_emitLog sk tn st row msg)

theorem processRow_eq_none (cfg : Config) (now ra : Int) (sk : String)
    (tn : Option String) (st : DState) (row : Row)
    (hmsg : row.message = none) :
    processRow cfg now ra sk tn st row =
      branchUsage sk
        (branchError cfg now ra sk tn
          (branchSnapshot sk
            (branchModelChange cfg now ra sk tn
              (branchThinkingLevel cfg now ra sk tn
                (branchSession sk st row) row) row) row) row) row := by
  unfold processRow
  rw [hmsg]

theorem grow_processRow (cfg : Config) (now ra : Int) (sk : String)
    (tn : Option String) (st : DState) (row : Row) :
    Grow cfg.maxSeenIds st (processRow cfg now ra sk tn st row) := by
  cases hm : row.message with
  | none =>
    rw [processRow_eq_none cfg now ra sk tn st row hm]
    refine grow_trans _ _ _ _ ?_ (grow_branchUsage _ _ _ _)
    refine grow_trans _ _ _ _ ?_ (grow_branchError _ _ _ _ _ _ _)
    refine grow_trans _ _ _ _ ?_ (grow_branchSnapshot _ _ _ _)
    refine grow_trans _ _ _ _ ?_ (grow_branchModelChange _ _ _ _ _ _ _)
    refine grow_trans _ _ _ _ ?_ (grow_branchThinkingLevel _ _ _ _ _ _ _)
    exact grow_branchSession _ _ _ _
  | some msg =>
    rw [processRow_eq cfg now ra sk tn st row msg hm]
    refine grow_trans _ _ _ _ ?_ (grow_branchToolResult _ _ _ _ _ _)
    refine grow_trans _ _ _ _ ?_ (grow_branchAssistant _ _ _ _ _ _ _ _)
    refine grow_trans _ _ _ _ ?_ (grow_branchUser _ _ _ _ _ _ _ _)
    refine grow_trans _ _ _ _ ?_ (grow_branchUsage _ _ _ _)
    refine grow_trans _ _ _ _ ?_ (grow_branchError _ _ _ _ _ _ _)
    refine grow_trans _ _ _ _ ?_ (grow_branchSnapshot _ _ _ _)
    refine grow_trans _ _ _ _ ?_ (grow_branchModelChange _ _ _ _ _ _ _)
    refine grow_trans _ _ _ _ ?_ (grow_branchThinkingLevel _ _ _ _ _ _ _)
    exact grow_branchSession _ _ _ _

theorem grow_tailLoop (cfg : Config) (parse : String → Option Row)
    (now ra : Int) (sk : String) (tn : Option String) :
    ∀ (lines : List String) (off : Nat) (st : DState),
    Grow cfg.maxSeenIds st
      (tailLoop cfg parse now ra sk tn lines off st).2 := by
  intro lines
  induction lines with
  | nil => intro off st; exact grow_refl _ _
  | cons l ls ih =>
    intro off st
    simp only [tailLoop]
    by_cases hb : jsTrim l = ""
    · rw [if_pos hb]
      exact ih _ _
    · rw [if_neg hb]
      cases hp : parse l with
      | none => exact ih _ _
      | some row =>
        exact grow_trans _ _ _ _ (grow_processRow _ _ _ _ _ _ _) (ih _ _)

theorem tailLoop_offset (cfg : Config) (parse : String → Option Row)
    (now ra : Int) (sk : String) (tn : Option String) :
    ∀ (lines : List String) (off : Nat) (st : DState),
    (tailLoop cfg parse now ra sk tn lines off st).1 =
      off + consumedBytes lines := by
  intro lines
  induction lines with
  | nil =>
    intro off st
    simp [tailLoop, consumedBytes]
  | cons l ls ih =>
    intro off st
    simp only [tailLoop]
    by_cases hb : jsTrim l = ""
    · rw [if_pos hb, ih]
      simp only [consumedBytes, List.map_cons, List.sum_cons, if_pos hb]
      omega
    · rw [if_neg hb]
      have hc : consumedBytes (l :: ls) = lineByteLen l + consumedBytes ls := by
        simp only [consumedBytes, List.map_cons, List.sum_cons, if_neg hb]
      cases hp : parse l with
      | none =>
        rw [ih]
        omega
      | some row =>
        rw [ih]
        omega

theorem tailFile_with_offset (cfg : Config) (parse : String → Option Row)
    (now ra : Int) (agent fname : String) (lines : List String)
    (st : DState) (off : Nat)
    (hvalid : isValidSessionFile fname = true)
    (hsize : ¬ fileBytes lines > cfg.maxFileSize)
    (hoff : mapFind? st.offsets (agent ++ ":" ++ fname) = some off) :
    tailFile cfg false parse now ra agent fname (some lines) st =
      tailAfter cfg parse now ra agent fname lines st := by
  rw [tailFile_eval cfg false parse now ra agent fname lines st hvalid hsize]
  have hns : (mapFind? st.offsets (agent ++ ":" ++ fname)).isNone = false := by
    rw [hoff]
    rfl
  simp only [hns, Bool.false_eq_true, if_false, ite_false]
  rfl

theorem grow_tailAfter (cfg : Config) (parse : String → Option Row)
    (now ra : Int) (agent fname : String) (lines : List String)
    (st1 : DState) :
    Grow cfg.maxSeenIds st1
      (tailAfter cfg parse now ra agent fname lines st1) := by
  refine grow_congr_right _ _ _ _
    (grow_tailLoop cfg parse now ra (getBaseSessionId fname)
      (getThreadNumber fname)
      (linesAfter lines ((mapFind? st1.offsets (agent ++ ":" ++ fname)).getD 0))
      ((mapFind? st1.offsets (agent ++ ":" ++ fname)).getD 0) st1) rfl rfl

theorem tailAfter_offsets (cfg : Config) (parse : String → Option Row)
    (now ra : Int) (agent fname : String) (lines : List String)
    (st1 : DState) (off : Nat)
    (hoff : mapFind? st1.offsets (agent ++ ":" ++ fname) = some off) :
    mapFind? (tailAfter cfg parse now ra agent fname lines st1).offsets
        (agent ++ ":" ++ fname) =
      some (off + consumedBytes (linesAfter lines off)) := by
  have hgd : (mapFind? st1.offsets (agent ++ ":" ++ fname)).getD 0 = off := by
    rw [hoff]
    rfl
  show mapFind? (mapInsert _ (agent ++ ":" ++ fname) _) (agent ++ ":" ++ fname) = _
  rw [mapFind?_mapInsert_self]
  show some (tailLoop cfg parse now ra (getBaseSessionId fname) (getThreadNumber fname) (linesAfter lines ((mapFind? st1.offsets (agent ++ ":" ++ fname)).getD 0)) ((mapFind? st1.offsets (agent ++ ":" ++ fname)).getD 0) st1).1 = _
  rw [hgd, tailLoop_offset]

/-- C2 counterexample: blank lines are skipped before the byte counter is
advanced, so a tail pass over the two lines `""` and `"x"` from saved
offset `0` stores offset `2` (the bytes of `"x\n"` alone), not
`0 + fileBytes = 3` — the stored offset does not advance by the bytes of
all newly consumed lines, blank lines included. -/
theorem tailFile_blank_line_offset_counterexample :
    mapFind?
        (tailFile defaultConfig false (fun _ => none) 0 0 "main"
          "aaaaaaaa-aaaa-aaaa-aaaa-aaaaaaaaaaaa.jsonl" (some ["", "x"])
          c2State).offsets
        ("main" ++ ":" ++ "aaaaaaaa-aaaa-aaaa-aaaa-aaaaaaaaaaaa.jsonl") =
      some 2 ∧
    mapFind? c2State.offsets
        ("main" ++ ":" ++ "aaaaaaaa-aaaa-aaaa-aaaa-aaaaaaaaaaaa.jsonl") =
      some 0 ∧
    fileBytes ["", "x"] = 3 ∧ (2 : Nat) ≠ 0 + fileBytes ["", "x"] :=
  ⟨by decide, by decide, by decide, by decide⟩

/-- C2 (amended): a tail pass from a saved offset advances the stored
offset by exactly the bytes of the newly consumed **non-blank** lines
(each such line's UTF-8 byte length plus one for its newline; blank lines
are skipped before the byte counter is advanced and contribute nothing);
and re-tailing afterwards produces zero duplicate events: as long as the
seen-id set has not reached its eviction capacity — detectable on the
final state, since the seen set only grows — the ids emitted across the
two passes are pairwise distinct, so no id emitted by the replay repeats
one from the first pass. -/
theorem tailFile_offset_advance_and_replay_dedup (cfg : Config)
    (parse : String → Option Row) (now1 ra1 now2 ra2 : Int)
    (agent fname : String) (lines1 lines2 : List String) (st : DState)
    (off : Nat)
    (hvalid : isValidSessionFile fname = true)
    (hsize1 : ¬ fileBytes lines1 > cfg.maxFileSize)
    (hsize2 : ¬ fileBytes lines2 > cfg.maxFileSize)
    (hoff : mapFind? st.offsets (agent ++ ":" ++ fname) = some off)
    (hseen : st.seen.length ≤ cfg.maxSeenIds) :
    mapFind?
        (tailFile cfg false parse now1 ra1 agent fname
          (some lines1) st).offsets (agent ++ ":" ++ fname) =
      some (off + consumedBytes (linesAfter lines1 off)) ∧
    ∃ new1 new2 : List String,
      (tailFile cfg false parse now1 ra1 agent fname
          (some lines1) st).emitLog = st.emitLog ++ new1 ∧
      (tailFile cfg false parse now2 ra2 agent fname (some lines2)
          (tailFile cfg false parse now1 ra1 agent fname
            (some lines1) st)).emitLog =
        (tailFile cfg false parse now1 ra1 agent fname
          (some lines1) st).emitLog ++ new2 ∧
      ((tailFile cfg false parse now2 ra2 agent fname (some lines2)
            (tailFile cfg false parse now1 ra1 agent fname
              (some lines1) st)).seen.length < cfg.maxSeenIds →
        (new1 ++ new2).Nodup ∧ ∀ id ∈ new2, id ∉ new1) := by
  have h1 := tailFile_with_offset cfg parse now1 ra1 agent fname lines1 st
    off hvalid hsize1 hoff
  rw [h1]
  have hoffst1 := tailAfter_offsets cfg parse now1 ra1 agent fname lines1
    st off hoff
  have g1 := grow_tailAfter cfg parse now1 ra1 agent fname lines1 st
  have h2 := tailFile_with_offset cfg parse now2 ra2 agent fname lines2
    (tailAfter cfg parse now1 ra1 agent fname lines1 st)
    (off + consumedBytes (linesAfter lines1 off)) hvalid hsize2 hoffst1
  rw [h2]
  have g2 := grow_tailAfter cfg parse now2 ra2 agent fname lines2
    (tailAfter cfg parse now1 ra1 agent fname lines1 st)
  refine ⟨hoffst1, ?_⟩
  obtain ⟨m1, c1, p1, new1, e1, hc1⟩ := g1 hseen
  obtain ⟨m2, c2, p2, new2, e2, hc2⟩ := g2 c1
  refine ⟨new1, new2, e1, e2, ?_⟩
  intro hlt
  have hlt1 : (tailAfter cfg parse now1 ra1 agent fname
      lines1 st).seen.length < cfg.maxSeenIds := lt_of_le_of_lt m2 hlt
  obtain ⟨n1, f1⟩ := hc1 hlt1
  obtain ⟨n2, f2⟩ := hc2 hlt
  constructor
  · rw [List.nodup_append]
    refine ⟨n1, n2, ?_⟩
    intro x hx1 hx2
    exact (f2 x hx2).2 (f1 x hx1).1
  · intro id h2m h1m
    exact (f2 id h2m).2 (f1 id h1m).1

/-- C2 witness: one concrete pass over a one-line file from saved offset
`0` advances the stored offset by the consumed non-blank bytes. -/
theorem tailFile_offset_advance_witness :
    c2State.seen.length ≤ defaultConfig.maxSeenIds ∧
    mapFind? c2State.offsets
        ("main" ++ ":" ++ "aaaaaaaa-aaaa-aaaa-aaaa-aaaaaaaaaaaa.jsonl") =
      some 0 ∧
    mapFind?
        (tailFile defaultConfig false (fun _ => none) 0 0 "main"
          "aaaaaaaa-aaaa-aaaa-aaaa-aaaaaaaaaaaa.jsonl" (some ["x"])
          c2State).offsets
        ("main" ++ ":" ++ "aaaaaaaa-aaaa-aaaa-aaaa-aaaaaaaaaaaa.jsonl") =
      some (0 + consumedBytes (linesAfter ["x"] 0)) :=
  ⟨by decide, by decide,
   (tailFile_offset_advance_and_replay_dedup defaultConfig (fun _ => none)
      0 0 0 0 "main" "aaaaaaaa-aaaa-aaaa-aaaa-aaaaaaaaaaaa.jsonl" ["x"]
      ["x"] c2State 0 (by decide) (by decide) (by decide) (by decide)
      (by decide)).1⟩

end SessionAudit
